import Mathlib

/-! M5Unit-DDS: the AD9833 register codec of `unit_DDS.cpp`.

A shallow embedding of `m5::unit::UnitDDS` (src/src/unit/unit_DDS.cpp and
unit_DDS.hpp).  Machine integers are naturals with explicit truncation at every
assignment to a fixed-width variable, binary floating point is modelled exactly
as correctly rounded dyadic rationals, and the I2C transport of `Component`
(an external library) is a parameter of every operation.
-/

namespace M5UnitDDS

/-! ## Binary floating point (IEEE-754, round to nearest, ties to even) -/

/-- A finite non-negative binary floating point value `mant / 2 ^ scale`. -/
structure Dyadic where
  mant : Nat
  scale : Nat
deriving DecidableEq, Repr

/-- Doubles the numerator until the integer part of `n / d` has `prec` bits
(or the fuel runs out), counting the doublings in the binary scale. -/
def normalize (prec : Nat) : Nat → Nat → Nat → Nat → Nat × Nat
  | 0, n, _, s => (n, s)
  | fuel + 1, n, d, s =>
    if n / d < 2 ^ (prec - 1) then normalize prec fuel (2 * n) d (s + 1) else (n, s)

/-- The integer nearest to `n / d`, a tie going to the even neighbour. -/
def roundHalfEven (n d : Nat) : Nat :=
  if 2 * (n % d) < d then n / d
  else if d < 2 * (n % d) then n / d + 1
  else if (n / d) % 2 = 0 then n / d
  else n / d + 1

/-- The floating point number with a `prec`-bit significand nearest to the
rational `n / d` (ties to even).  This is IEEE-754 rounding for `n = 0` and for
`1 ≤ n / d < 2 ^ prec`; no overflow and no subnormal result occurs at the
magnitudes of this driver.  A value of `2 ^ prec` or more is kept as it is:
the only such value below is `out_hz * 2 ^ 28` in `calculate_ftw`, which has at
most 32 significant bits and is exact in `double` as well. -/
def fpRound (prec n d : Nat) : Dyadic :=
  if n = 0 then ⟨0, 0⟩
  else
    let r := normalize prec prec n d 0
    ⟨roundHalfEven r.1 d, r.2⟩

/-- Conversion of an unsigned integer to floating point (`static_cast`). -/
def Dyadic.ofNat (prec n : Nat) : Dyadic := fpRound prec n 1

/-- Floating point product, correctly rounded. -/
def fmul (prec : Nat) (a b : Dyadic) : Dyadic :=
  fpRound prec (a.mant * b.mant) (2 ^ (a.scale + b.scale))

/-- Floating point quotient, correctly rounded. -/
def fdiv (prec : Nat) (a b : Dyadic) : Dyadic :=
  fpRound prec (a.mant * 2 ^ b.scale) (b.mant * 2 ^ a.scale)

/-- The functions `llround` and `lround` of `<cmath>` on a non-negative
argument: the nearest integer, a tie going away from zero. -/
def llround (x : Dyadic) : Nat := (2 * x.mant + 2 ^ x.scale) / 2 ^ (x.scale + 1)

/-- Significand width of `double`. -/
def DBL_MANT_DIG : Nat := 53

/-- Significand width of `float`. -/
def FLT_MANT_DIG : Nat := 24

/-! ## Constants and helpers of the anonymous namespace -/

/-- The master clock `constexpr double MCLK{10000000.f}`: ten million is below
`2 ^ 24`, so the `float` literal is exact. -/
def MCLK : Dyadic := Dyadic.ofNat DBL_MANT_DIG 10000000

def MINIMUM_FREQ : Nat := 0
def MAXIMUM_FREQ : Nat := 1000000

/-- Function `calculate_ftw`: the 28-bit frequency tuning word of `out_hz` (a
`uint32_t`):
`static_cast<uint32_t>(llround(static_cast<double>(out_hz) * scale / MCLK)) & 0x0FFFFFFF`
with `scale = static_cast<double>(1ULL << 28)`.  The product is a 32-bit integer
times a power of two, which `double` holds exactly; the quotient is below
`2 ^ 37` and is rounded to 53 bits; the `long long` result of `llround` is
reduced modulo `2 ^ 32` by the cast. -/
def calculate_ftw (out_hz : Nat) : Nat :=
  let scale := Dyadic.ofNat DBL_MANT_DIG (1 <<< 28)
  let ftw := llround (fdiv DBL_MANT_DIG
      (fmul DBL_MANT_DIG (Dyadic.ofNat DBL_MANT_DIG out_hz) scale) MCLK) % 2 ^ 32
  ftw &&& 0x0FFFFFFF

/-- Function `calculate_phase`: the 11-bit phase word of `deg` (a `uint16_t`):
`d = deg % 360`, `pw = static_cast<uint16_t>(lround(d * (2048.0f / 360.0f)))`,
result `pw & 0x7FF`.  The product is a `float` product. -/
def calculate_phase (deg : Nat) : Nat :=
  let d := deg % 360
  let pw := llround (fmul FLT_MANT_DIG (Dyadic.ofNat FLT_MANT_DIG d)
      (fdiv FLT_MANT_DIG (Dyadic.ofNat FLT_MANT_DIG 2048) (Dyadic.ofNat FLT_MANT_DIG 360)))
    % 2 ^ 16
  pw &&& 0x7FF

/-- Function `is_valid_frequency`: `std::isfinite(freq) && freq <= MAXIMUM_FREQ`; an
integer converted to `double` is always finite. -/
def is_valid_frequency (freq : Nat) : Bool := decide (freq ≤ MAXIMUM_FREQ)

/-! ## Register map (`dds::command`) and output modes -/

def READ_DESCRIPTION_REG : Nat := 0x10
def MODE_REG : Nat := 0x20
def CONTROL_REG : Nat := 0x21
def FREQUENCY_REG : Nat := 0x30
def PHASE_REG : Nat := 0x34

/-- The type `enum class Mode : uint8_t`, held by its underlying value: the cast
`static_cast<Mode>(v & 0x07)` of `readMode` and `writeMode` can produce the
unnamed values 6 and 7. -/
structure Mode where
  to_underlying : Nat
deriving DecidableEq, Repr

namespace Mode
def Reserved : Mode := ⟨0⟩
def Sin : Mode := ⟨1⟩
def Triangle : Mode := ⟨2⟩
def Square : Mode := ⟨3⟩
def Sawtooth : Mode := ⟨4⟩
def DC : Mode := ⟨5⟩
end Mode

/-! ## The transport of `Component` and the driver state -/

/-- One transaction put on the I2C bus. -/
inductive BusOp where
  | write (reg : Nat) (bytes : List Nat)
  | read (reg : Nat) (len : Nat)
deriving DecidableEq, Repr

/-- The transport collaborator over a device state `σ`: a register write
reports success, a one-byte register read yields the byte on success. -/
structure Transport (σ : Type) where
  writeRegister : σ → Nat → List Nat → Bool × σ
  readRegister8 : σ → Nat → Option Nat × σ

/-- The state of a `UnitDDS` instance: the cache `uint16_t _freq[2]` indexed by
`(int)select`, the device behind the transport, and the record of the bus
transactions issued so far. -/
structure UnitDDS (σ : Type) where
  _freq : Bool → Nat
  device : σ
  bus : List BusOp

variable {σ : Type}

/-- Assignment `_freq[(int)select] = v`; the element type is `uint16_t`, so the
value is truncated to 16 bits. -/
def UnitDDS.set_freq (u : UnitDDS σ) (select : Bool) (v : Nat) : UnitDDS σ :=
  { u with _freq := fun b => if b = select then v % 2 ^ 16 else u._freq b }

/-- Getter `frequency0()`: the written frequency of bank 0, a `uint16_t`. -/
def frequency0 (u : UnitDDS σ) : Nat := u._freq false

/-- Getter `frequency1()`: the written frequency of bank 1, a `uint16_t`. -/
def frequency1 (u : UnitDDS σ) : Nat := u._freq true

/-- Transport call `Component::writeRegister(reg, buf, len)`. -/
def writeRegister (t : Transport σ) (u : UnitDDS σ) (reg : Nat) (buf : List Nat) :
    Bool × UnitDDS σ :=
  let r := t.writeRegister u.device reg buf
  (r.1, { u with device := r.2, bus := u.bus ++ [BusOp.write reg buf] })

/-- Transport call `Component::writeRegister8(reg, value)`: a register write of
one byte. -/
def writeRegister8 (t : Transport σ) (u : UnitDDS σ) (reg : Nat) (v : Nat) :
    Bool × UnitDDS σ :=
  writeRegister t u reg [v]

/-- Transport call `Component::readRegister8(reg, v, 0)`: the byte read (a `uint8_t`) on
success, nothing on failure. -/
def readRegister8 (t : Transport σ) (u : UnitDDS σ) (reg : Nat) :
    Option Nat × UnitDDS σ :=
  let r := t.readRegister8 u.device reg
  (r.1.map (· % 256), { u with device := r.2, bus := u.bus ++ [BusOp.read reg 1] })

/-- Method `UnitDDS::read_control`. -/
def read_control (t : Transport σ) (u : UnitDDS σ) : Option Nat × UnitDDS σ :=
  readRegister8 t u CONTROL_REG

/-- Method `UnitDDS::write_register8`: `writeRegister8(reg, v | 0x80)`, the
argument being a `uint8_t`. -/
def write_register8 (t : Transport σ) (u : UnitDDS σ) (reg : Nat) (v : Nat) :
    Bool × UnitDDS σ :=
  writeRegister8 t u reg ((v ||| 0x80) % 256)

/-! ## Operations of `UnitDDS` -/

/-- Method `UnitDDS::readMode`: the out-parameter starts as `Reserved` and becomes
`static_cast<Mode>(v & 0x07)` when the read succeeds. -/
def readMode (t : Transport σ) (u : UnitDDS σ) : Bool × Mode × UnitDDS σ :=
  let r := readRegister8 t u MODE_REG
  match r.1 with
  | some v => (true, ⟨v &&& 0x07⟩, r.2)
  | none => (false, Mode.Reserved, r.2)

/-- Method `UnitDDS::writeFrequency`. -/
def writeFrequency (t : Transport σ) (u : UnitDDS σ) (select : Bool) (freq : Nat) :
    Bool × UnitDDS σ :=
  if !is_valid_frequency freq then (false, u)
  else
    let ftw := calculate_ftw freq
    let buf := [((ftw >>> 24) &&& 0x0F) ||| (if select then 0xC0 else 0x80),
                (ftw >>> 16) &&& 0xFF,
                (ftw >>> 8) &&& 0xFF,
                ftw &&& 0xFF]
    let u1 := u.set_freq select 0
    let w := writeRegister t u1 FREQUENCY_REG buf
    if !w.1 then (false, w.2)
    else (true, w.2.set_freq select freq)

/-- Method `UnitDDS::writeFrequency0`. -/
def writeFrequency0 (t : Transport σ) (u : UnitDDS σ) (freq : Nat) : Bool × UnitDDS σ :=
  writeFrequency t u false freq

/-- Method `UnitDDS::writeFrequency1`. -/
def writeFrequency1 (t : Transport σ) (u : UnitDDS σ) (freq : Nat) : Bool × UnitDDS σ :=
  writeFrequency t u true freq

/-- Method `UnitDDS::writePhase`. -/
def writePhase (t : Transport σ) (u : UnitDDS σ) (select : Bool) (deg : Nat) :
    Bool × UnitDDS σ :=
  let ph := calculate_phase deg
  let buf := [((ph >>> 8) &&& 0x07) ||| (if select then 0xC0 else 0x80),
              ph &&& 0xFF]
  writeRegister t u PHASE_REG buf

/-- Method `UnitDDS::writeFrequencyAndPhase`. -/
def writeFrequencyAndPhase (t : Transport σ) (u : UnitDDS σ) (select_freq : Bool)
    (freq : Nat) (select_phase : Bool) (deg : Nat) : Bool × UnitDDS σ :=
  if !is_valid_frequency freq then (false, u)
  else
    let ftw := calculate_ftw freq
    let ph := calculate_phase deg
    let buf := [((ftw >>> 24) &&& 0x0F) ||| (if select_freq then 0xC0 else 0x80),
                (ftw >>> 16) &&& 0xFF,
                (ftw >>> 8) &&& 0xFF,
                ftw &&& 0xFF,
                ((ph >>> 8) &&& 0x07) ||| (if select_phase then 0xC0 else 0x80),
                ph &&& 0xFF]
    let u1 := u.set_freq select_freq 0
    let w := writeRegister t u1 FREQUENCY_REG buf
    if w.1 then (true, w.2.set_freq select_freq freq)
    else (false, w.2)

/-- Method `UnitDDS::writeMode`.  In `v & ~0x07` the byte is promoted to `int`, so the
mask keeps bits 3 to 7; the result is stored back into a `uint8_t`. -/
def writeMode (t : Transport σ) (u : UnitDDS σ) (mode : Mode) : Bool × UnitDDS σ :=
  let rv := readRegister8 t u MODE_REG
  match rv.1 with
  | none => (false, rv.2)
  | some v =>
    let rc := read_control t rv.2
    match rc.1 with
    | none => (false, rc.2)
    | some ctrl =>
      let old : Mode := ⟨v &&& 0x07⟩
      let write_freq := (old == Mode.Sawtooth || old == Mode.DC) &&
        (mode != Mode.Sawtooth && mode != Mode.DC)
      let v1 := ((v &&& 0xF8) ||| mode.to_underlying) % 256
      let w1 := write_register8 t rc.2 MODE_REG v1
      if !w1.1 then (false, w1.2)
      else
        let w2 := write_register8 t w1.2 CONTROL_REG ctrl
        if !w2.1 then (false, w2.2)
        else if write_freq then
          let f0 := writeFrequency0 t w2.2 (w2.2._freq false)
          if !f0.1 then (false, f0.2)
          else writeFrequency1 t f0.2 (f0.2._freq true)
        else (true, w2.2)

/-- Method `UnitDDS::writeCurrent`.  In `ctrl &= ~0x60` the byte is promoted to
`int` and the result stored back into a `uint8_t`: bits 0x60 are cleared, the
other six kept (`& 0x9F`). -/
def writeCurrent (t : Transport σ) (u : UnitDDS σ) (select_freq select_phase : Bool) :
    Bool × UnitDDS σ :=
  let rc := read_control t u
  match rc.1 with
  | none => (false, rc.2)
  | some ctrl =>
    let c1 := ctrl &&& 0x9F
    let c2 := c1 ||| (if select_freq then 0x40 else 0x00)
    let c3 := c2 ||| (if select_phase then 0x20 else 0x00)
    write_register8 t rc.2 CONTROL_REG c3

/-- Method `UnitDDS::writeCurrentFrequency`; `ctrl &= ~0x40` keeps `& 0xBF`. -/
def writeCurrentFrequency (t : Transport σ) (u : UnitDDS σ) (select : Bool) :
    Bool × UnitDDS σ :=
  let rc := read_control t u
  match rc.1 with
  | none => (false, rc.2)
  | some ctrl =>
    let c1 := ctrl &&& 0xBF
    let c2 := c1 ||| (if select then 0x40 else 0x00)
    write_register8 t rc.2 CONTROL_REG c2

/-- Method `UnitDDS::writeCurrentPhase`; `ctrl &= ~0x20` keeps `& 0xDF`. -/
def writeCurrentPhase (t : Transport σ) (u : UnitDDS σ) (select : Bool) :
    Bool × UnitDDS σ :=
  let rc := read_control t u
  match rc.1 with
  | none => (false, rc.2)
  | some ctrl =>
    let c1 := ctrl &&& 0xDF
    let c2 := c1 ||| (if select then 0x20 else 0x00)
    write_register8 t rc.2 CONTROL_REG c2

/-- Method `UnitDDS::writeOutput`. -/
def writeOutput (t : Transport σ) (u : UnitDDS σ) (mode : Mode) (select : Bool)
    (freq deg : Nat) : Bool × UnitDDS σ :=
  if !is_valid_frequency freq then (false, u)
  else
    let a := writeFrequencyAndPhase t u select freq select deg
    if !a.1 then (false, a.2)
    else
      let b := writeMode t a.2 mode
      if !b.1 then (false, b.2)
      else writeCurrent t b.2 select select

/-- Method `UnitDDS::sleep`; `ctrl &= ~0x18` keeps `& 0xE7`. -/
def sleep (t : Transport σ) (u : UnitDDS σ) (mclk DAC : Bool) : Bool × UnitDDS σ :=
  if !mclk && !DAC then (false, u)
  else
    let rc := read_control t u
    match rc.1 with
    | none => (false, rc.2)
    | some ctrl =>
      let c1 := ctrl &&& 0xE7
      let c2 := c1 ||| (if mclk then 0x10 else 0x00)
      let c3 := c2 ||| (if DAC then 0x08 else 0x00)
      write_register8 t rc.2 CONTROL_REG c3

/-- Method `UnitDDS::wakeup`; `ctrl &= ~0x1C` keeps `& 0xE3`, and the settling
delay after the write has no effect on the state. -/
def wakeup (t : Transport σ) (u : UnitDDS σ) : Bool × UnitDDS σ :=
  let rc := read_control t u
  match rc.1 with
  | none => (false, rc.2)
  | some ctrl =>
    let c1 := ctrl &&& 0xE3
    let w := write_register8 t rc.2 CONTROL_REG c1
    if w.1 then (true, w.2) else (false, w.2)

/-- Method `UnitDDS::reset`. -/
def reset (t : Transport σ) (u : UnitDDS σ) : Bool × UnitDDS σ :=
  let rc := read_control t u
  match rc.1 with
  | none => (false, rc.2)
  | some ctrl => write_register8 t rc.2 CONTROL_REG (ctrl ||| 0x04)

/-! ## Transports used to run the driver on concrete inputs -/

/-- A device that keeps the bytes written to it: a write of `bytes` to `reg`
stores byte `i` at `reg + i`, a read returns the stored byte, and every
operation succeeds. -/
def registerStore : Transport (Nat → Nat) where
  writeRegister := fun s reg bytes =>
    (true, fun r => if reg ≤ r ∧ r < reg + bytes.length then bytes.getD (r - reg) 0 else s r)
  readRegister8 := fun s reg => (some (s reg), s)

/-- A bus on which every transaction fails. -/
def deadBus : Transport Unit where
  writeRegister := fun s _ _ => (false, s)
  readRegister8 := fun s _ => (none, s)

/-- A fresh driver instance (`_freq` zero-initialised, nothing sent yet) in
front of a device state. -/
def UnitDDS.init (d : σ) : UnitDDS σ := ⟨fun _ => 0, d, []⟩

/-- Register contents with `m` in the mode register and `c` in the control
register, every other register zero. -/
def registers (m c : Nat) : Nat → Nat :=
  fun r => if r = MODE_REG then m else if r = CONTROL_REG then c else 0


end M5UnitDDS

namespace M5UnitDDS

/-! ## Specification-side definitions -/

/-- The integer nearest to the exact rational `n / d`, a tie going away from
zero (up, for these non-negative arguments). -/
def nearestInt (n d : Nat) : Nat := (2 * n + d) / (2 * d)

/-- The tuning word in the words of the specification:
the integer nearest to `freq * 2^28 / 10,000,000`, reduced modulo `2^28`. -/
def tuningWordSpec (freq : Nat) : Nat := nearestInt (freq * 2 ^ 28) 10000000 % 2 ^ 28

/-- The phase word in the words of the specification:
the integer nearest to `(deg mod 360) * 2048 / 360`, masked to 11 bits. -/
def phaseWordSpec (deg : Nat) : Nat := nearestInt (deg % 360 * 2048) 360 % 2 ^ 11

/-- A transport on which every operation succeeds. -/
def Transport.Reliable {σ : Type} (t : Transport σ) : Prop :=
  (∀ s reg bytes, (t.writeRegister s reg bytes).1 = true) ∧
  (∀ s reg, ∃ v, (t.readRegister8 s reg).1 = some v)

/-- A driver state whose cache holds `uint16_t` values, as its type says. -/
def UnitDDS.WellFormed {σ : Type} (u : UnitDDS σ) : Prop := ∀ b, u._freq b < 2 ^ 16

/-- The four bytes that carry the tuning word of `freq` to bank `select`. -/
def frequencyFrame (select : Bool) (freq : Nat) : List Nat :=
  [((calculate_ftw freq >>> 24) &&& 0x0F) ||| (if select then 0xC0 else 0x80),
   (calculate_ftw freq >>> 16) &&& 0xFF,
   (calculate_ftw freq >>> 8) &&& 0xFF,
   calculate_ftw freq &&& 0xFF]

/-- The condition of `writeMode` for rewriting the frequency banks: the device
leaves Sawtooth or DC for a mode that is neither. -/
def needsResync (old new : Mode) : Prop :=
  (old = Mode.Sawtooth ∨ old = Mode.DC) ∧ new ≠ Mode.Sawtooth ∧ new ≠ Mode.DC

instance (old new : Mode) : Decidable (needsResync old new) := by
  unfold needsResync; infer_instance

/-- A bus on which every write succeeds and every read fails. -/
def writeOnlyBus : Transport Unit where
  writeRegister := fun s _ _ => (true, s)
  readRegister8 := fun s _ => (none, s)

/-- A call of `sleep` or of `reset`. -/
inductive PowerCall where
  | sleep (mclk DAC : Bool)
  | reset
deriving DecidableEq, Repr

/-- The driver state after one `sleep` or `reset` call on the register store. -/
def PowerCall.run (c : PowerCall) (u : UnitDDS (Nat → Nat)) : UnitDDS (Nat → Nat) :=
  match c with
  | PowerCall.sleep mclk DAC => (M5UnitDDS.sleep registerStore u mclk DAC).2
  | PowerCall.reset => (M5UnitDDS.reset registerStore u).2

/-- The driver state after a sequence of `sleep` and `reset` calls. -/
def runPowerCalls (calls : List PowerCall) (u : UnitDDS (Nat → Nat)) : UnitDDS (Nat → Nat) :=
  calls.foldl (fun s c => c.run s) u

/-- The six named output modes are the values 0 to 5 of the enumeration. -/
def Mode.isDefined (m : Mode) : Prop := m.to_underlying ≤ 5

instance (m : Mode) : Decidable m.isDefined := by
  unfold Mode.isDefined; infer_instance

/-- The write-target tag in the leading byte of a frequency or phase frame. -/
def bankTag (select : Bool) : Nat := if select then 0xC0 else 0x80

/-- Every byte that a list of transactions writes to the mode register or to
the control register carries the write marker 0x80. -/
def Marked (ops : List BusOp) : Prop :=
  ∀ reg bytes, BusOp.write reg bytes ∈ ops → reg = 0x20 ∨ reg = 0x21 →
    ∀ b ∈ bytes, b &&& 0x80 = 0x80

/-- The state `v` comes from the state `u` by issuing transactions that are all
marked. -/
def MarkedExt {σ : Type} (u v : UnitDDS σ) : Prop :=
  ∃ ops, v.bus = u.bus ++ ops ∧ Marked ops

/-- The three ways a read-modify-write of the control register can leave the
driver: untouched (refused before any transaction), after a failed read, or
after the read and the write of some byte. -/
def ControlStep {σ : Type} (t : Transport σ) (u s : UnitDDS σ) : Prop :=
  s = u ∨ s = (read_control t u).2 ∨
    ∃ x, s = (write_register8 t (read_control t u).2 CONTROL_REG x).2

/-- Replays a list of transactions on the transport from the device state `d`:
whether every one of them succeeds, and the device state at the end. -/
def replay {σ : Type} (t : Transport σ) : σ → List BusOp → Bool × σ
  | d, [] => (true, d)
  | d, BusOp.write reg bytes :: rest =>
    let r := t.writeRegister d reg bytes
    let k := replay t r.2 rest
    (r.1 && k.1, k.2)
  | d, BusOp.read reg _ :: rest =>
    let r := t.readRegister8 d reg
    let k := replay t r.2 rest
    (r.1.isSome && k.1, k.2)

/-- The step from `u` to `v` issued transactions whose replay from the device
of `u` ends in the device of `v`, and `ok` tells whether all of them
succeeded. -/
def Faithful {σ : Type} (t : Transport σ) (u : UnitDDS σ) (ok : Bool) (v : UnitDDS σ) :
    Prop :=
  ∃ ops, v.bus = u.bus ++ ops ∧ v.device = (replay t u.device ops).2 ∧
    ok = (replay t u.device ops).1

/-- The driver states that a sequence of calls of the public operations can
reach from a fresh instance.  The method `readDescription` (and with it the
first step of `begin`, whose other steps are `writeOutput` and `wakeup`) reads
six bytes of register 0x10 and does not touch the cache; that read is not one
of the transport primitives modelled here, so the device state it leaves is
arbitrary. -/
inductive Reachable {σ : Type} (t : Transport σ) : UnitDDS σ → Prop
  | init (d : σ) : Reachable t (UnitDDS.init d)
  | readDescription {u : UnitDDS σ} (d : σ) : Reachable t u →
      Reachable t { u with device := d,
                           bus := u.bus ++ [BusOp.read READ_DESCRIPTION_REG 6] }
  | readMode {u : UnitDDS σ} : Reachable t u → Reachable t (readMode t u).2.2
  | writeMode {u : UnitDDS σ} (mode : Mode) :
      Reachable t u → Reachable t (writeMode t u mode).2
  | writeFrequency {u : UnitDDS σ} (select : Bool) (freq : Nat) :
      Reachable t u → Reachable t (writeFrequency t u select freq).2
  | writePhase {u : UnitDDS σ} (select : Bool) (deg : Nat) :
      Reachable t u → Reachable t (writePhase t u select deg).2
  | writeFrequencyAndPhase {u : UnitDDS σ} (select_freq : Bool) (freq : Nat)
      (select_phase : Bool) (deg : Nat) :
      Reachable t u →
        Reachable t (writeFrequencyAndPhase t u select_freq freq select_phase deg).2
  | writeCurrent {u : UnitDDS σ} (select_freq select_phase : Bool) :
      Reachable t u → Reachable t (writeCurrent t u select_freq select_phase).2
  | writeCurrentFrequency {u : UnitDDS σ} (select : Bool) :
      Reachable t u → Reachable t (writeCurrentFrequency t u select).2
  | writeCurrentPhase {u : UnitDDS σ} (select : Bool) :
      Reachable t u → Reachable t (writeCurrentPhase t u select).2
  | writeOutput {u : UnitDDS σ} (mode : Mode) (select : Bool) (freq deg : Nat) :
      Reachable t u → Reachable t (writeOutput t u mode select freq deg).2
  | sleep {u : UnitDDS σ} (mclk DAC : Bool) :
      Reachable t u → Reachable t (sleep t u mclk DAC).2
  | wakeup {u : UnitDDS σ} : Reachable t u → Reachable t (wakeup t u).2
  | reset {u : UnitDDS σ} : Reachable t u → Reachable t (reset t u).2

/-! ## Rounding lemmas -/

theorem normalize_shape (prec : Nat) :
    ∀ fuel n d s, ∃ k, normalize prec fuel n d s = (n * 2 ^ k, s + k) := by
  intro fuel
  induction fuel with
  | zero => intro n d s; exact ⟨0, by simp [normalize]⟩
  | succ fuel ih =>
    intro n d s
    unfold normalize
    split
    · obtain ⟨k, hk⟩ := ih (2 * n) d (s + 1)
      refine ⟨k + 1, ?_⟩
      rw [hk, pow_succ]
      ext
      · simp; ring
      · simp; omega
    · exact ⟨0, by simp⟩

theorem normalize_scale_gt (prec d : Nat) :
    ∀ fuel n s j, j < fuel → (n * 2 ^ j) / d < 2 ^ (prec - 1) →
      s + j < (normalize prec fuel n d s).2 := by
  intro fuel
  induction fuel with
  | zero => intro n s j hj _; omega
  | succ fuel ih =>
    intro n s j hj h
    have hle : n / d ≤ (n * 2 ^ j) / d :=
      Nat.div_le_div_right (Nat.le_mul_of_pos_right n (Nat.two_pow_pos j))
    have hlt : n / d < 2 ^ (prec - 1) := lt_of_le_of_lt hle h
    unfold normalize
    rw [if_pos hlt]
    cases j with
    | zero =>
      obtain ⟨k, hk⟩ := normalize_shape prec fuel (2 * n) d (s + 1)
      rw [hk]; simp; omega
    | succ j =>
      have h2 : (2 * n * 2 ^ j) / d < 2 ^ (prec - 1) := by
        have : 2 * n * 2 ^ j = n * 2 ^ (j + 1) := by rw [pow_succ]; ring
        rw [this]; exact h
      have := ih (2 * n) (s + 1) j (by omega) h2
      omega

theorem roundHalfEven_bounds (n d : Nat) (hd : 0 < d) :
    2 * (roundHalfEven n d * d) ≤ 2 * n + d ∧ 2 * n ≤ 2 * (roundHalfEven n d * d) + d := by
  have hdm := Nat.div_add_mod n d
  have hr := Nat.mod_lt n hd
  have hmul : (n / d + 1) * d = d * (n / d) + d := by ring
  have hmul0 : (n / d) * d = d * (n / d) := by ring
  unfold roundHalfEven
  split
  · rw [hmul0]; omega
  · split
    · rw [hmul]; omega
    · split
      · rw [hmul0]; omega
      · rw [hmul]; omega

theorem fpRound_bounds (prec n d : Nat) (hd : 0 < d) (hn : 0 < n) :
    2 * ((fpRound prec n d).mant * d) ≤ 2 * (n * 2 ^ (fpRound prec n d).scale) + d ∧
    2 * (n * 2 ^ (fpRound prec n d).scale) ≤ 2 * ((fpRound prec n d).mant * d) + d := by
  obtain ⟨k, hk⟩ := normalize_shape prec prec n d 0
  unfold fpRound
  rw [if_neg (by omega)]
  simp only [hk, Nat.zero_add]
  exact roundHalfEven_bounds (n * 2 ^ k) d hd

theorem fpRound_scale_gt (prec n d j : Nat) (hn : 0 < n) (hj : j < prec)
    (h : (n * 2 ^ j) / d < 2 ^ (prec - 1)) : j < (fpRound prec n d).scale := by
  unfold fpRound
  rw [if_neg (by omega)]
  have := normalize_scale_gt prec d prec n 0 j hj h
  simpa using this

theorem fpRound_exact (prec n d : Nat) (hd : 0 < d) (hdvd : d ∣ n) :
    ∃ k, fpRound prec n d = ⟨n / d * 2 ^ k, k⟩ := by
  unfold fpRound
  split
  · next h0 => exact ⟨0, by simp [h0]⟩
  · obtain ⟨k, hk⟩ := normalize_shape prec prec n d 0
    refine ⟨k, ?_⟩
    obtain ⟨c, rfl⟩ := hdvd
    have hmod : d * c * 2 ^ k % d = 0 := by rw [Nat.mul_assoc]; exact Nat.mul_mod_right _ _
    have hdiv : d * c * 2 ^ k / d = c * 2 ^ k := by
      rw [Nat.mul_assoc]; exact Nat.mul_div_cancel_left _ hd
    simp only [hk, Nat.zero_add, roundHalfEven, hmod, hdiv, Nat.mul_zero, hd, if_true,
      Nat.mul_div_cancel_left _ hd]

theorem ofNat_exact (prec n : Nat) : ∃ k, Dyadic.ofNat prec n = ⟨n * 2 ^ k, k⟩ := by
  obtain ⟨k, hk⟩ := fpRound_exact prec n 1 Nat.one_pos (one_dvd n)
  exact ⟨k, by simpa [Dyadic.ofNat] using hk⟩

theorem fmul_exact (prec x y a b : Nat) :
    ∃ k, fmul prec ⟨x * 2 ^ a, a⟩ ⟨y * 2 ^ b, b⟩ = ⟨x * y * 2 ^ k, k⟩ := by
  have hd : 0 < 2 ^ (a + b) := Nat.two_pow_pos _
  have hn : x * 2 ^ a * (y * 2 ^ b) = 2 ^ (a + b) * (x * y) := by rw [pow_add]; ring
  obtain ⟨k, hk⟩ := fpRound_exact prec (x * 2 ^ a * (y * 2 ^ b)) (2 ^ (a + b)) hd
    ⟨x * y, hn⟩
  refine ⟨k, ?_⟩
  rw [hn, Nat.mul_div_cancel_left _ hd] at hk
  unfold fmul
  simp only [hn, hk]

/-- The rounded double-precision quotient of `f * 2^28` by ten million, however
both operands are scaled, rounds to the same integer as the exact quotient as
long as `f < 2,560,000,000`: the rounding error is at most `2^-18`, and the
exact quotient is at least `1/156250` away from every half. -/
theorem llround_quotient (f E : Nat) (hE : 0 < E) (hf : f < 2560000000) :
    llround (fpRound DBL_MANT_DIG (f * 2 ^ 28 * E) (10000000 * E)) =
      nearestInt (f * 2 ^ 28) 10000000 := by
  rcases Nat.eq_zero_or_pos f with h0 | hpos
  · subst h0
    simp [fpRound, llround, nearestInt]
  · have hn : 0 < f * 2 ^ 28 * E := by positivity
    have hd : 0 < 10000000 * E := by positivity
    have hb := fpRound_bounds DBL_MANT_DIG (f * 2 ^ 28 * E) (10000000 * E) hd hn
    have hs : 16 < (fpRound DBL_MANT_DIG (f * 2 ^ 28 * E) (10000000 * E)).scale := by
      apply fpRound_scale_gt DBL_MANT_DIG _ _ 16 hn (by norm_num [DBL_MANT_DIG])
      rw [Nat.div_lt_iff_lt_mul hd]
      have e1 : f * 2 ^ 28 * E * 2 ^ 16 = (f * 2 ^ 44) * E := by ring
      have e2 : 2 ^ (DBL_MANT_DIG - 1) * (10000000 * E) = (2 ^ 52 * 10000000) * E := by
        simp only [DBL_MANT_DIG]; ring
      rw [e1, e2]
      apply Nat.mul_lt_mul_of_pos_right _ hE
      norm_num
      omega
    generalize fpRound DBL_MANT_DIG (f * 2 ^ 28 * E) (10000000 * E) = x at hb hs ⊢
    obtain ⟨M, t⟩ := x
    simp only at hb hs
    have hP : 2 ^ 17 ≤ 2 ^ t := Nat.pow_le_pow_right (by norm_num) hs
    obtain ⟨hb1, hb2⟩ := hb
    have c1 : 2 * (M * 10000000) ≤ 2 * (f * 2 ^ 28 * 2 ^ t) + 10000000 := by
      apply Nat.le_of_mul_le_mul_right _ hE
      calc 2 * (M * 10000000) * E = 2 * (M * (10000000 * E)) := by ring
        _ ≤ 2 * (f * 2 ^ 28 * E * 2 ^ t) + 10000000 * E := hb1
        _ = (2 * (f * 2 ^ 28 * 2 ^ t) + 10000000) * E := by ring
    have c2 : 2 * (f * 2 ^ 28 * 2 ^ t) ≤ 2 * (M * 10000000) + 10000000 := by
      apply Nat.le_of_mul_le_mul_right _ hE
      calc 2 * (f * 2 ^ 28 * 2 ^ t) * E = 2 * (f * 2 ^ 28 * E * 2 ^ t) := by ring
        _ ≤ 2 * (M * (10000000 * E)) + 10000000 * E := hb2
        _ = (2 * (M * 10000000) + 10000000) * E := by ring
    unfold llround nearestInt
    simp only
    generalize hN : (2 * (f * 2 ^ 28) + 10000000) / (2 * 10000000) = N
    have n1 : 2 * 10000000 * N + 128 ≤ 2 * (f * 2 ^ 28) + 10000000 := by
      norm_num at hN ⊢; omega
    have n2 : 2 * (f * 2 ^ 28) + 10000000 + 128 ≤ 2 * 10000000 * (N + 1) := by
      norm_num at hN ⊢; omega
    have m1 := Nat.mul_le_mul_right (2 ^ t) n1
    have m2 := Nat.mul_le_mul_right (2 ^ t) n2
    have r1 : (2 * 10000000 * N + 128) * 2 ^ t = 20000000 * (N * 2 ^ t) + 128 * 2 ^ t := by
      ring
    have r2 : (2 * (f * 2 ^ 28) + 10000000) * 2 ^ t =
        2 * (f * 2 ^ 28 * 2 ^ t) + 10000000 * 2 ^ t := by ring
    have r3 : (2 * (f * 2 ^ 28) + 10000000 + 128) * 2 ^ t =
        2 * (f * 2 ^ 28 * 2 ^ t) + 10000000 * 2 ^ t + 128 * 2 ^ t := by ring
    have r4 : 2 * 10000000 * (N + 1) * 2 ^ t = 20000000 * (N * 2 ^ t) + 20000000 * 2 ^ t := by
      ring
    rw [r1, r2] at m1
    rw [r3, r4] at m2
    have hpow : 2 ^ (t + 1) = 2 * 2 ^ t := by rw [pow_succ]; ring
    rw [hpow]
    generalize f * 2 ^ 28 * 2 ^ t = X at c1 c2 m1 m2
    have hP' : 131072 ≤ 2 ^ t := by simpa using hP
    apply Nat.div_eq_of_lt_le
    · have e : N * (2 * 2 ^ t) = 2 * (N * 2 ^ t) := by ring
      rw [e]
      generalize N * 2 ^ t = Y at m1 m2
      generalize 2 ^ t = P at *
      omega
    · have e : (N + 1) * (2 * 2 ^ t) = 2 * (N * 2 ^ t) + 2 * 2 ^ t := by ring
      rw [e]
      generalize N * 2 ^ t = Y at m1 m2
      generalize 2 ^ t = P at *
      omega

/-- For an input below 2,560,000,000 the double-precision quotient lies within
`2^-18` of the exact one, which cannot move it across a half: the tuning word
is the exactly rounded one. -/
theorem calculate_ftw_eq_spec (out_hz : Nat) (h : out_hz < 2560000000) :
    calculate_ftw out_hz = tuningWordSpec out_hz := by
  have hmask : ∀ N : Nat, (N % 2 ^ 32) &&& 0x0FFFFFFF = N % 2 ^ 28 := by
    intro N
    have h1 : (0x0FFFFFFF : Nat) = 2 ^ 28 - 1 := by norm_num
    rw [h1, Nat.and_pow_two_sub_one_eq_mod]
    exact Nat.mod_mod_of_dvd N (by norm_num)
  unfold calculate_ftw tuningWordSpec
  simp only [hmask]
  congr 1
  obtain ⟨k1, hk1⟩ := ofNat_exact DBL_MANT_DIG out_hz
  obtain ⟨k2, hk2⟩ := ofNat_exact DBL_MANT_DIG (1 <<< 28)
  obtain ⟨k3, hk3⟩ := ofNat_exact DBL_MANT_DIG 10000000
  obtain ⟨k, hk⟩ := fmul_exact DBL_MANT_DIG out_hz (1 <<< 28) k1 k2
  rw [hk1, hk2, hk, MCLK, hk3]
  have h28 : (1 <<< 28 : Nat) = 2 ^ 28 := by decide
  rw [h28]
  unfold fdiv
  simp only
  have e1 : out_hz * 2 ^ 28 * 2 ^ k * 2 ^ k3 = out_hz * 2 ^ 28 * (2 ^ k * 2 ^ k3) := by ring
  have e2 : 10000000 * 2 ^ k3 * 2 ^ k = 10000000 * (2 ^ k * 2 ^ k3) := by ring
  rw [e1, e2]
  exact llround_quotient out_hz (2 ^ k * 2 ^ k3) (by positivity) h

/-! ## Bit-level lemmas -/

theorem calculate_ftw_lt (out_hz : Nat) : calculate_ftw out_hz < 2 ^ 28 := by
  unfold calculate_ftw
  have h1 : (0x0FFFFFFF : Nat) = 2 ^ 28 - 1 := by norm_num
  simp only [h1, Nat.and_pow_two_sub_one_eq_mod]
  exact Nat.mod_lt _ (by norm_num)

/-- Four frame bytes built from a 28-bit word and a bank tag give back both the
word and the tag. -/
theorem frame_decode (w : Nat) (hw : w < 2 ^ 28) (tag : Nat) (ht : tag = 0x80 ∨ tag = 0xC0) :
    ((((w >>> 24) &&& 0x0F) ||| tag) &&& 0x0F) <<< 24 ||| ((w >>> 16) &&& 0xFF) <<< 16 |||
      ((w >>> 8) &&& 0xFF) <<< 8 ||| (w &&& 0xFF) = w ∧
    (((w >>> 24) &&& 0x0F) ||| tag) &&& 0xC0 = tag := by
  have hF : ∀ x : Nat, x &&& 0xFF = x % 2 ^ 8 := fun x => Nat.and_pow_two_sub_one_eq_mod x 8
  have h0F : ∀ x : Nat, x &&& 0x0F = x % 2 ^ 4 := fun x => Nat.and_pow_two_sub_one_eq_mod x 4
  have ha : (w >>> 24) &&& 0x0F < 16 := by rw [h0F]; exact Nat.mod_lt _ (by norm_num)
  have hav : (w >>> 24) &&& 0x0F = w / 2 ^ 24 := by
    rw [h0F, Nat.shiftRight_eq_div_pow]
    apply Nat.mod_eq_of_lt
    rw [Nat.div_lt_iff_lt_mul (by norm_num)]
    norm_num at hw ⊢; omega
  have key : ∀ a < 16, ∀ tag, (tag = 0x80 ∨ tag = 0xC0) →
      ((a ||| tag) &&& 0x0F) = a ∧ (a ||| tag) &&& 0xC0 = tag := by
    intro a h tag ht
    rcases ht with rfl | rfl <;> (revert a; decide)
  obtain ⟨k1, k2⟩ := key _ ha tag ht
  refine ⟨?_, k2⟩
  rw [k1, hav, hF, hF, hF]
  simp only [Nat.shiftRight_eq_div_pow, Nat.shiftLeft_eq]
  have s1 : w / 2 ^ 8 % 2 ^ 8 * 2 ^ 8 ||| w % 2 ^ 8 =
      w / 2 ^ 8 % 2 ^ 8 * 2 ^ 8 + w % 2 ^ 8 := by
    rw [Nat.mul_comm]
    exact (Nat.mul_add_lt_is_or (Nat.mod_lt _ (by norm_num)) _).symm
  have s2 : w / 2 ^ 16 % 2 ^ 8 * 2 ^ 16 ||| (w / 2 ^ 8 % 2 ^ 8 * 2 ^ 8 + w % 2 ^ 8) =
      w / 2 ^ 16 % 2 ^ 8 * 2 ^ 16 + (w / 2 ^ 8 % 2 ^ 8 * 2 ^ 8 + w % 2 ^ 8) := by
    rw [Nat.mul_comm]
    refine (Nat.mul_add_lt_is_or ?_ _).symm
    norm_num; omega
  have s3 : w / 2 ^ 24 * 2 ^ 24 |||
        (w / 2 ^ 16 % 2 ^ 8 * 2 ^ 16 + (w / 2 ^ 8 % 2 ^ 8 * 2 ^ 8 + w % 2 ^ 8)) =
      w / 2 ^ 24 * 2 ^ 24 +
        (w / 2 ^ 16 % 2 ^ 8 * 2 ^ 16 + (w / 2 ^ 8 % 2 ^ 8 * 2 ^ 8 + w % 2 ^ 8)) := by
    rw [Nat.mul_comm]
    refine (Nat.mul_add_lt_is_or ?_ _).symm
    norm_num; omega
  rw [Nat.lor_assoc, Nat.lor_assoc, s1, s2, s3]
  norm_num; omega

set_option maxRecDepth 1000000 in
/-- On every reduced degree the single-precision computation gives the exactly
rounded phase word. -/
theorem calculate_phase_table : ∀ d < 360, calculate_phase d = phaseWordSpec d := by
  decide

theorem calculate_phase_mod (deg : Nat) : calculate_phase deg = calculate_phase (deg % 360) := by
  unfold calculate_phase
  simp only [Nat.mod_mod]

theorem calculate_phase_eq_spec (deg : Nat) : calculate_phase deg = phaseWordSpec deg := by
  rw [calculate_phase_mod]
  have h := calculate_phase_table (deg % 360) (Nat.mod_lt _ (by norm_num))
  rw [h]
  unfold phaseWordSpec
  simp only [Nat.mod_mod]

/-! ## What one call puts on the bus -/

theorem writeFrequency_invalid (t : Transport σ) (u : UnitDDS σ) (select : Bool) (freq : Nat)
    (h : 1000000 < freq) : writeFrequency t u select freq = (false, u) := by
  have hv : is_valid_frequency freq = false := by
    simp [is_valid_frequency, MAXIMUM_FREQ]; omega
  simp [writeFrequency, hv]

theorem is_valid_of_le (freq : Nat) (h : freq ≤ 1000000) : is_valid_frequency freq = true := by
  simp [is_valid_frequency, MAXIMUM_FREQ]; omega

theorem writeFrequency_bus (t : Transport σ) (u : UnitDDS σ) (select : Bool) (freq : Nat)
    (h : freq ≤ 1000000) :
    (writeFrequency t u select freq).2.bus = u.bus ++ [BusOp.write FREQUENCY_REG
      [((calculate_ftw freq >>> 24) &&& 0x0F) ||| (if select then 0xC0 else 0x80),
       (calculate_ftw freq >>> 16) &&& 0xFF,
       (calculate_ftw freq >>> 8) &&& 0xFF,
       calculate_ftw freq &&& 0xFF]] := by
  simp only [writeFrequency, is_valid_of_le freq h, writeRegister, UnitDDS.set_freq]
  generalize t.writeRegister u.device FREQUENCY_REG _ = r
  obtain ⟨ok, d⟩ := r
  cases ok <;> simp

theorem writeFrequency_result (t : Transport σ) (u : UnitDDS σ) (select : Bool) (freq : Nat)
    (h : freq ≤ 1000000) :
    (writeFrequency t u select freq).1 = (t.writeRegister u.device FREQUENCY_REG
      [((calculate_ftw freq >>> 24) &&& 0x0F) ||| (if select then 0xC0 else 0x80),
       (calculate_ftw freq >>> 16) &&& 0xFF,
       (calculate_ftw freq >>> 8) &&& 0xFF,
       calculate_ftw freq &&& 0xFF]).1 := by
  simp only [writeFrequency, is_valid_of_le freq h, writeRegister, UnitDDS.set_freq]
  generalize t.writeRegister u.device FREQUENCY_REG _ = r
  obtain ⟨ok, d⟩ := r
  cases ok <;> simp

theorem writeFrequency_freq (t : Transport σ) (u : UnitDDS σ) (select : Bool) (freq : Nat)
    (h : freq ≤ 1000000) (b : Bool) :
    (writeFrequency t u select freq).2._freq b =
      if b = select then
        (if (writeFrequency t u select freq).1 then freq % 2 ^ 16 else 0)
      else u._freq b := by
  simp only [writeFrequency, is_valid_of_le freq h, writeRegister, UnitDDS.set_freq]
  generalize t.writeRegister u.device FREQUENCY_REG _ = r
  obtain ⟨ok, d⟩ := r
  by_cases hb : b = select <;> cases ok <;> simp [hb]

theorem writePhase_eq (t : Transport σ) (u : UnitDDS σ) (select : Bool) (deg : Nat) :
    writePhase t u select deg = writeRegister t u PHASE_REG
      [((calculate_phase deg >>> 8) &&& 0x07) ||| (if select then 0xC0 else 0x80),
       calculate_phase deg &&& 0xFF] := rfl

theorem writePhase_bus (t : Transport σ) (u : UnitDDS σ) (select : Bool) (deg : Nat) :
    (writePhase t u select deg).2.bus = u.bus ++ [BusOp.write PHASE_REG
      [((calculate_phase deg >>> 8) &&& 0x07) ||| (if select then 0xC0 else 0x80),
       calculate_phase deg &&& 0xFF]] := rfl

theorem writeFrequencyAndPhase_invalid (t : Transport σ) (u : UnitDDS σ)
    (select_freq : Bool) (freq : Nat) (select_phase : Bool) (deg : Nat)
    (h : 1000000 < freq) :
    writeFrequencyAndPhase t u select_freq freq select_phase deg = (false, u) := by
  have hv : is_valid_frequency freq = false := by
    simp [is_valid_frequency, MAXIMUM_FREQ]; omega
  simp [writeFrequencyAndPhase, hv]

theorem writeFrequencyAndPhase_bus (t : Transport σ) (u : UnitDDS σ)
    (select_freq : Bool) (freq : Nat) (select_phase : Bool) (deg : Nat)
    (h : freq ≤ 1000000) :
    (writeFrequencyAndPhase t u select_freq freq select_phase deg).2.bus =
      u.bus ++ [BusOp.write FREQUENCY_REG
        [((calculate_ftw freq >>> 24) &&& 0x0F) ||| (if select_freq then 0xC0 else 0x80),
         (calculate_ftw freq >>> 16) &&& 0xFF,
         (calculate_ftw freq >>> 8) &&& 0xFF,
         calculate_ftw freq &&& 0xFF,
         ((calculate_phase deg >>> 8) &&& 0x07) ||| (if select_phase then 0xC0 else 0x80),
         calculate_phase deg &&& 0xFF]] := by
  simp only [writeFrequencyAndPhase, is_valid_of_le freq h, writeRegister, UnitDDS.set_freq]
  generalize t.writeRegister u.device FREQUENCY_REG _ = r
  obtain ⟨ok, d⟩ := r
  cases ok <;> simp

/-- On a transport that never fails, `writeMode` succeeds and its transactions are
the two reads, the mode and control writes and, when the device leaves Sawtooth
or DC for another mode, the two frequency frames of the cached values. -/
theorem writeMode_reliable (t : Transport σ) (ht : t.Reliable) (u : UnitDDS σ)
    (hu : u.WellFormed) (mode : Mode) (v c : Nat)
    (hv : (readRegister8 t u MODE_REG).1 = some v)
    (hc : (read_control t (readRegister8 t u MODE_REG).2).1 = some c) :
    (writeMode t u mode).1 = true ∧
    (writeMode t u mode).2.bus = u.bus ++
      ([BusOp.read MODE_REG 1, BusOp.read CONTROL_REG 1,
        BusOp.write MODE_REG [(((v &&& 0xF8) ||| mode.to_underlying) % 256 ||| 0x80) % 256],
        BusOp.write CONTROL_REG [(c ||| 0x80) % 256]] ++
       if needsResync ⟨v &&& 0x07⟩ mode
       then [BusOp.write FREQUENCY_REG (frequencyFrame false (u._freq false)),
             BusOp.write FREQUENCY_REG (frequencyFrame true (u._freq true))]
       else []) := by
  have hok : ∀ (s : UnitDDS σ) reg x, (write_register8 t s reg x).1 = true :=
    fun s reg x => ht.1 _ _ _
  have hf0 : u._freq false ≤ 1000000 := by have := hu false; omega
  have hf1 : u._freq true ≤ 1000000 := by have := hu true; omega
  unfold writeMode
  simp only [hv, hc, hok, Bool.not_true, Bool.false_eq_true, if_false]
  generalize hs : (write_register8 t (write_register8 t
    (read_control t (readRegister8 t u MODE_REG).2).2 MODE_REG
      (((v &&& 0xF8) ||| mode.to_underlying) % 256)).2 CONTROL_REG c).2 = s
  have hsb : s.bus = u.bus ++ [BusOp.read MODE_REG 1, BusOp.read CONTROL_REG 1,
      BusOp.write MODE_REG [(((v &&& 0xF8) ||| mode.to_underlying) % 256 ||| 0x80) % 256],
      BusOp.write CONTROL_REG [(c ||| 0x80) % 256]] := by
    rw [← hs]
    simp [write_register8, writeRegister8, writeRegister, read_control, readRegister8]
  have hsf : s._freq = u._freq := by rw [← hs]; rfl
  split
  · next hcond =>
    simp only [Bool.and_eq_true, Bool.or_eq_true, beq_iff_eq, bne_iff_ne] at hcond
    rw [if_pos (show needsResync ⟨v &&& 0x07⟩ mode from hcond)]
    have r0 : (writeFrequency t s false (s._freq false)).1 = true := by
      rw [writeFrequency_result t s false _ (by rw [hsf]; exact hf0)]; exact ht.1 _ _ _
    have b0 := writeFrequency_bus t s false (s._freq false) (by rw [hsf]; exact hf0)
    have q0 := writeFrequency_freq t s false (s._freq false) (by rw [hsf]; exact hf0) true
    simp only [Bool.true_eq_false, if_false] at q0
    simp only [writeFrequency0, writeFrequency1, r0, Bool.not_true, Bool.false_eq_true,
      if_false]
    have hq1 : (writeFrequency t s false (s._freq false)).2._freq true ≤ 1000000 := by
      rw [q0, hsf]; exact hf1
    refine ⟨?_, ?_⟩
    · rw [writeFrequency_result t _ true _ hq1]; exact ht.1 _ _ _
    · rw [writeFrequency_bus t _ true _ hq1, b0, q0, hsb, hsf]
      simp [frequencyFrame]
  · next hcond =>
    simp only [Bool.and_eq_true, Bool.or_eq_true, beq_iff_eq, bne_iff_ne] at hcond
    rw [if_neg (show ¬ needsResync ⟨v &&& 0x07⟩ mode from hcond)]
    exact ⟨rfl, by simp [hsb]⟩

theorem registerStore_reliable : registerStore.Reliable :=
  ⟨fun _ _ _ => rfl, fun s reg => ⟨s reg, rfl⟩⟩

theorem init_wellFormed (d : σ) : (UnitDDS.init d).WellFormed := fun _ => by
  simp [UnitDDS.init]

/-! ## The claims -/

/-- C1. `writeFrequency(bank, freq)` with `freq` in [0, 1,000,000] returns true
when the transport write it issues succeeds; with `freq > 1,000,000` it returns
false, puts nothing on the bus and leaves the cached frequency of both banks
(and the rest of the state) as it was. -/
theorem writeFrequency_range_contract (t : Transport σ) (u : UnitDDS σ) (select : Bool)
    (freq : Nat) :
    (freq ≤ 1000000 →
      ∀ buf, (writeFrequency t u select freq).2.bus = u.bus ++ [BusOp.write FREQUENCY_REG buf] →
        (t.writeRegister u.device FREQUENCY_REG buf).1 = true →
        (writeFrequency t u select freq).1 = true) ∧
    (1000000 < freq →
      (writeFrequency t u select freq).1 = false ∧
      (writeFrequency t u select freq).2.bus = u.bus ∧
      (writeFrequency t u select freq).2._freq = u._freq ∧
      (writeFrequency t u select freq).2.device = u.device) := by
  constructor
  · intro h buf hbus hok
    rw [writeFrequency_bus t u select freq h] at hbus
    have hb := List.append_cancel_left hbus
    simp only [List.cons.injEq, BusOp.write.injEq, true_and, and_true] at hb
    rw [writeFrequency_result t u select freq h, hb]
    exact hok
  · intro h
    rw [writeFrequency_invalid t u select freq h]
    simp

/-- C1, run on a device that stores what it receives: 1000 Hz is accepted on
bank 0, 1,000,001 Hz is refused without a transaction. -/
theorem writeFrequency_range_contract_witness :
    (writeFrequency registerStore (UnitDDS.init (registers 0 0)) false 1000).1 = true ∧
    ((writeFrequency registerStore (UnitDDS.init (registers 0 0)) true 1000001).1 = false ∧
     (writeFrequency registerStore (UnitDDS.init (registers 0 0)) true 1000001).2.bus = [] ∧
     (writeFrequency registerStore (UnitDDS.init (registers 0 0)) true 1000001).2._freq =
        (UnitDDS.init (registers 0 0))._freq ∧
     (writeFrequency registerStore (UnitDDS.init (registers 0 0)) true 1000001).2.device =
        registers 0 0) :=
  ⟨(writeFrequency_range_contract registerStore (UnitDDS.init (registers 0 0)) false 1000).1
      (by decide) [128, 0, 104, 220] (by decide) rfl,
   (writeFrequency_range_contract registerStore (UnitDDS.init (registers 0 0)) true 1000001).2
      (by decide)⟩

/-- C2 as stated fails: at the 32-bit input 2,560,016,206 the exact quotient is
`68719911586 + 39062/78125`, just below a half, the `double` division rounds it
onto the half, and `llround` then goes up: the code gives 435027 where the
nearest integer modulo `2^28` is 435026. -/
theorem calculate_ftw_double_rounding :
    2560016206 < 2 ^ 32 ∧ calculate_ftw 2560016206 = 435027 ∧
      tuningWordSpec 2560016206 = 435026 := by
  decide

/-- C2, amended. For every `freq` below 2,560,000,000 (every accepted frequency
included) `calculate_ftw freq` is the integer nearest to
`freq * 2^28 / 10,000,000`, ties away from zero, reduced modulo `2^28`; in
particular 0 gives 0, 5,000,000 gives `2^27` and 10,000,000 gives 0. -/
theorem calculate_ftw_nearest (freq : Nat) (h : freq < 2560000000) :
    calculate_ftw freq = tuningWordSpec freq ∧
    calculate_ftw 0 = 0 ∧ calculate_ftw 5000000 = 2 ^ 27 ∧ calculate_ftw 10000000 = 0 :=
  ⟨calculate_ftw_eq_spec freq h, by decide, by decide, by decide⟩

/-- C2 amended, at the largest accepted frequency: the word of 1 MHz. -/
theorem calculate_ftw_nearest_witness :
    (1000000 < 2560000000) ∧
    (calculate_ftw 1000000 = tuningWordSpec 1000000 ∧
     calculate_ftw 0 = 0 ∧ calculate_ftw 5000000 = 2 ^ 27 ∧ calculate_ftw 10000000 = 0) :=
  ⟨by decide, calculate_ftw_nearest 1000000 (by decide)⟩

/-- C3. For every `deg`, `calculate_phase deg` is the integer nearest to
`(deg mod 360) * 2048 / 360` masked to 11 bits, hence depends on `deg mod 360`
only; 0 and 360 give 0, 180 gives 1024, and 361 gives the word of 1. -/
theorem calculate_phase_nearest (deg : Nat) :
    calculate_phase deg = phaseWordSpec deg ∧
    calculate_phase deg = calculate_phase (deg % 360) ∧
    calculate_phase 0 = 0 ∧ calculate_phase 360 = 0 ∧ calculate_phase 180 = 1024 ∧
    calculate_phase 361 = calculate_phase 1 :=
  ⟨calculate_phase_eq_spec deg, calculate_phase_mod deg, by decide, by decide, by decide,
    by decide⟩

/-- C4. For `freq` in [0, 1,000,000], `writeFrequency` puts exactly one
transaction on the bus, a write of four bytes `b0..b3` to register 0x30, and
`((b0 & 0x0F) << 24) | (b1 << 16) | (b2 << 8) | b3` is `calculate_ftw freq`
while `b0 & 0xC0` is 0x80 for bank 0 and 0xC0 for bank 1. -/
theorem writeFrequency_frame (t : Transport σ) (u : UnitDDS σ) (select : Bool) (freq : Nat)
    (h : freq ≤ 1000000) :
    ∃ b0 b1 b2 b3 : Nat,
      (writeFrequency t u select freq).2.bus = u.bus ++ [BusOp.write 0x30 [b0, b1, b2, b3]] ∧
      ((b0 &&& 0x0F) <<< 24 ||| b1 <<< 16 ||| b2 <<< 8 ||| b3) = calculate_ftw freq ∧
      b0 &&& 0xC0 = (if select then 0xC0 else 0x80) := by
  refine ⟨_, _, _, _, writeFrequency_bus t u select freq h, ?_⟩
  apply frame_decode _ (calculate_ftw_lt freq)
  cases select <;> simp

/-- C4 on a device that stores what it receives: 50 kHz on bank 1. -/
theorem writeFrequency_frame_witness :
    ∃ b0 b1 b2 b3 : Nat,
      (writeFrequency registerStore (UnitDDS.init (registers 0 0)) true 50000).2.bus =
        (UnitDDS.init (registers 0 0)).bus ++ [BusOp.write 0x30 [b0, b1, b2, b3]] ∧
      ((b0 &&& 0x0F) <<< 24 ||| b1 <<< 16 ||| b2 <<< 8 ||| b3) = calculate_ftw 50000 ∧
      b0 &&& 0xC0 = (if true then 0xC0 else 0x80) :=
  writeFrequency_frame registerStore (UnitDDS.init (registers 0 0)) true 50000 (by decide)

/-- C5. For every bank and every `deg`, `writePhase` puts exactly one
transaction on the bus, a write of the two bytes `((pw >> 8) & 0x07) | tag` and
`pw & 0xFF` to register 0x34 with `pw = calculate_phase deg` and `tag` 0x80 for
bank 0, 0xC0 for bank 1, and returns what that transport write returns: there
is no input validation that could fail. -/
theorem writePhase_frame (t : Transport σ) (u : UnitDDS σ) (select : Bool) (deg : Nat) :
    (writePhase t u select deg).2.bus = u.bus ++ [BusOp.write 0x34
      [((calculate_phase deg >>> 8) &&& 0x07) ||| bankTag select,
       calculate_phase deg &&& 0xFF]] ∧
    (writePhase t u select deg).1 = (t.writeRegister u.device 0x34
      [((calculate_phase deg >>> 8) &&& 0x07) ||| bankTag select,
       calculate_phase deg &&& 0xFF]).1 := by
  rw [writePhase_eq]
  exact ⟨rfl, rfl⟩

/-- C6. For `freq ≤ 1,000,000`, `writeFrequencyAndPhase` puts exactly one
transaction on the bus, a write of six bytes to register 0x30: the four bytes
`writeFrequency(freqBank, freq)` transmits followed by the two bytes
`writePhase(phaseBank, deg)` transmits.  For `freq > 1,000,000` it returns false
and transmits nothing. -/
theorem writeFrequencyAndPhase_frame (t : Transport σ) (u : UnitDDS σ)
    (select_freq : Bool) (freq : Nat) (select_phase : Bool) (deg : Nat) :
    (freq ≤ 1000000 → ∃ fb pb : List Nat,
      (writeFrequency t u select_freq freq).2.bus = u.bus ++ [BusOp.write 0x30 fb] ∧
      (writePhase t u select_phase deg).2.bus = u.bus ++ [BusOp.write 0x34 pb] ∧
      fb.length = 4 ∧ pb.length = 2 ∧
      (writeFrequencyAndPhase t u select_freq freq select_phase deg).2.bus =
        u.bus ++ [BusOp.write 0x30 (fb ++ pb)]) ∧
    (1000000 < freq →
      (writeFrequencyAndPhase t u select_freq freq select_phase deg).1 = false ∧
      (writeFrequencyAndPhase t u select_freq freq select_phase deg).2.bus = u.bus) := by
  constructor
  · intro h
    exact ⟨_, _, writeFrequency_bus t u select_freq freq h,
      writePhase_bus t u select_phase deg, rfl, rfl,
      writeFrequencyAndPhase_bus t u select_freq freq select_phase deg h⟩
  · intro h
    rw [writeFrequencyAndPhase_invalid t u select_freq freq select_phase deg h]
    exact ⟨rfl, rfl⟩

/-- C6 on a device that stores what it receives: 50 kHz on bank 1 with 90
degrees on bank 0 is one six-byte write, and 1,000,001 Hz transmits nothing. -/
theorem writeFrequencyAndPhase_frame_witness :
    (∃ fb pb : List Nat,
      (writeFrequency registerStore (UnitDDS.init (registers 0 0)) true 50000).2.bus =
        (UnitDDS.init (registers 0 0)).bus ++ [BusOp.write 0x30 fb] ∧
      (writePhase registerStore (UnitDDS.init (registers 0 0)) false 90).2.bus =
        (UnitDDS.init (registers 0 0)).bus ++ [BusOp.write 0x34 pb] ∧
      fb.length = 4 ∧ pb.length = 2 ∧
      (writeFrequencyAndPhase registerStore (UnitDDS.init (registers 0 0))
          true 50000 false 90).2.bus =
        (UnitDDS.init (registers 0 0)).bus ++ [BusOp.write 0x30 (fb ++ pb)]) ∧
    ((writeFrequencyAndPhase registerStore (UnitDDS.init (registers 0 0))
          true 1000001 false 90).1 = false ∧
      (writeFrequencyAndPhase registerStore (UnitDDS.init (registers 0 0))
          true 1000001 false 90).2.bus = (UnitDDS.init (registers 0 0)).bus) :=
  ⟨(writeFrequencyAndPhase_frame registerStore (UnitDDS.init (registers 0 0))
      true 50000 false 90).1 (by decide),
   (writeFrequencyAndPhase_frame registerStore (UnitDDS.init (registers 0 0))
      true 1000001 false 90).2 (by decide)⟩


/-- C7 fails on the code at 100,000 Hz: the cache `_freq` and the getters are
`uint16_t`, so after a successful `writeFrequency(false, 100000)` (and after a
successful `writeFrequencyAndPhase` on bank 1) the written-frequency property is
`100000 mod 65536 = 34464`. -/
theorem written_frequency_truncated :
    (writeFrequency registerStore (UnitDDS.init (registers 0 0)) false 100000).1 = true ∧
    frequency0 (writeFrequency registerStore (UnitDDS.init (registers 0 0)) false 100000).2
      = 34464 ∧
    (writeFrequencyAndPhase registerStore (UnitDDS.init (registers 0 0))
      true 100000 true 0).1 = true ∧
    frequency1 (writeFrequencyAndPhase registerStore (UnitDDS.init (registers 0 0))
      true 100000 true 0).2 = 34464 := by
  decide

/-- C8. For `freq` in [0, 1,000,000], when the transport write that
`writeFrequency(bank, freq)` issues fails, the call returns false, the cached
frequency of that bank is 0 and the cached frequency of the other bank is what
it was. -/
theorem writeFrequency_failure (t : Transport σ) (u : UnitDDS σ) (select : Bool)
    (freq : Nat) (buf : List Nat) (h : freq ≤ 1000000)
    (hbus : (writeFrequency t u select freq).2.bus = u.bus ++ [BusOp.write FREQUENCY_REG buf])
    (hfail : (t.writeRegister u.device FREQUENCY_REG buf).1 = false) :
    (writeFrequency t u select freq).1 = false ∧
    (writeFrequency t u select freq).2._freq select = 0 ∧
    (writeFrequency t u select freq).2._freq (!select) = u._freq (!select) := by
  rw [writeFrequency_bus t u select freq h] at hbus
  have hb := List.append_cancel_left hbus
  simp only [List.cons.injEq, BusOp.write.injEq, true_and, and_true] at hb
  have hres : (writeFrequency t u select freq).1 = false := by
    rw [writeFrequency_result t u select freq h, hb]; exact hfail
  refine ⟨hres, ?_, ?_⟩
  · rw [writeFrequency_freq t u select freq h select, hres]; simp
  · rw [writeFrequency_freq t u select freq h (!select)]; simp

/-- C8 on a dead bus, starting from a cache that holds 777 Hz in both banks:
bank 0 drops to 0, bank 1 keeps 777. -/
theorem writeFrequency_failure_witness :
    (writeFrequency deadBus (⟨fun _ => 777, (), []⟩ : UnitDDS Unit) false 1000).1 = false ∧
    (writeFrequency deadBus (⟨fun _ => 777, (), []⟩ : UnitDDS Unit) false 1000).2._freq false
      = 0 ∧
    (writeFrequency deadBus (⟨fun _ => 777, (), []⟩ : UnitDDS Unit) false 1000).2._freq
      (!false) = (⟨fun _ => 777, (), []⟩ : UnitDDS Unit)._freq (!false) :=
  writeFrequency_failure deadBus ⟨fun _ => 777, (), []⟩ false 1000 [128, 0, 104, 220]
    (by decide) (by decide) rfl

/-- C9. On a transport on which every operation succeeds (and a cache of
`uint16_t` values), with `v` the mode byte and `c` the control byte read from
the device, `writeMode(newMode)` issues
writes to the frequency register if and only if the mode read (`v & 0x07`) is
Sawtooth or DC and `newMode` is neither; when it does, they are one write
tagged for bank 0 followed by one tagged for bank 1, after the mode write and
the control write. -/
theorem writeMode_resync_iff (t : Transport σ) (ht : t.Reliable) (u : UnitDDS σ)
    (hu : u.WellFormed) (newMode : Mode) (v c : Nat)
    (hv : (readRegister8 t u MODE_REG).1 = some v)
    (hc : (read_control t (readRegister8 t u MODE_REG).2).1 = some c) :
    ((∃ bytes, BusOp.write FREQUENCY_REG bytes ∈
        (writeMode t u newMode).2.bus.drop u.bus.length) ↔
      needsResync ⟨v &&& 0x07⟩ newMode) ∧
    (needsResync ⟨v &&& 0x07⟩ newMode →
      ∃ mv cv a0 a1 a2 a3 b0 b1 b2 b3 : Nat,
        (writeMode t u newMode).2.bus = u.bus ++
          [BusOp.read MODE_REG 1, BusOp.read CONTROL_REG 1,
           BusOp.write MODE_REG [mv], BusOp.write CONTROL_REG [cv],
           BusOp.write FREQUENCY_REG [a0, a1, a2, a3],
           BusOp.write FREQUENCY_REG [b0, b1, b2, b3]] ∧
        a0 &&& 0xC0 = 0x80 ∧ b0 &&& 0xC0 = 0xC0) := by
  obtain ⟨-, hbus⟩ := writeMode_reliable t ht u hu newMode v c hv hc
  constructor
  · rw [hbus, List.drop_left]
    by_cases hn : needsResync ⟨v &&& 0x07⟩ newMode
    · rw [if_pos hn]
      exact ⟨fun _ => hn, fun _ => ⟨frequencyFrame false (u._freq false), by simp⟩⟩
    · rw [if_neg hn, List.append_nil]
      refine ⟨fun hex => ?_, fun h => absurd h hn⟩
      obtain ⟨bytes, hmem⟩ := hex
      simp [CONTROL_REG, MODE_REG, FREQUENCY_REG] at hmem
  · intro hn
    rw [if_pos hn] at hbus
    refine ⟨_, _, _, _, _, _, _, _, _, _, hbus, ?_, ?_⟩
    · exact (frame_decode _ (calculate_ftw_lt _) 0x80 (Or.inl rfl)).2
    · exact (frame_decode _ (calculate_ftw_lt _) 0xC0 (Or.inr rfl)).2

/-- C9 on a device that stores what it receives: leaving Sawtooth (mode byte 4)
for Sin rewrites both frequency banks. -/
theorem writeMode_resync_iff_witness :
    ((∃ bytes, BusOp.write FREQUENCY_REG bytes ∈
        (writeMode registerStore (UnitDDS.init (registers 4 0)) Mode.Sin).2.bus.drop
          (UnitDDS.init (registers 4 0)).bus.length) ↔
      needsResync ⟨4 &&& 0x07⟩ Mode.Sin) ∧
    (needsResync ⟨4 &&& 0x07⟩ Mode.Sin →
      ∃ mv cv a0 a1 a2 a3 b0 b1 b2 b3 : Nat,
        (writeMode registerStore (UnitDDS.init (registers 4 0)) Mode.Sin).2.bus =
          (UnitDDS.init (registers 4 0)).bus ++
          [BusOp.read MODE_REG 1, BusOp.read CONTROL_REG 1,
           BusOp.write MODE_REG [mv], BusOp.write CONTROL_REG [cv],
           BusOp.write FREQUENCY_REG [a0, a1, a2, a3],
           BusOp.write FREQUENCY_REG [b0, b1, b2, b3]] ∧
        a0 &&& 0xC0 = 0x80 ∧ b0 &&& 0xC0 = 0xC0) :=
  writeMode_resync_iff registerStore registerStore_reliable (UnitDDS.init (registers 4 0))
    (init_wellFormed _) Mode.Sin 4 0 rfl rfl

/-- The two transitions named by the specification, run on a device that stores
what it receives: Sawtooth to Sin puts six transactions on the bus, the last
two being the frequency frames of bank 0 and bank 1; Sin to Square puts four,
none of them to the frequency register. -/
theorem writeMode_transitions :
    (writeMode registerStore (UnitDDS.init (registers 4 0)) Mode.Sin).2.bus =
      [BusOp.read 0x20 1, BusOp.read 0x21 1, BusOp.write 0x20 [0x81],
       BusOp.write 0x21 [0x80], BusOp.write 0x30 [0x80, 0, 0, 0],
       BusOp.write 0x30 [0xC0, 0, 0, 0]] ∧
    (writeMode registerStore (UnitDDS.init (registers 1 0)) Mode.Square).2.bus =
      [BusOp.read 0x20 1, BusOp.read 0x21 1, BusOp.write 0x20 [0x83],
       BusOp.write 0x21 [0x80]] := by
  decide

/-- C10 fails on the code at `f0 = 100000`: with the device in Sawtooth, after
`writeFrequency(false, 100000)` and `writeFrequency(true, 1000)` have both
succeeded, `writeMode(Sin)` rewrites bank 0 with the bytes `80 0E 1D D0` (the
word of `100000 mod 65536 = 34464` Hz), not with the bytes `80 28 F5 C3` that
`writeFrequency(false, 100000)` transmitted; bank 1 is rewritten with the bytes
of 1000 Hz. -/
theorem writeMode_resync_truncated :
    (writeFrequency registerStore (UnitDDS.init (registers 4 0)) false 100000).1 = true ∧
    (writeFrequency registerStore
      (writeFrequency registerStore (UnitDDS.init (registers 4 0)) false 100000).2
      true 1000).1 = true ∧
    (writeMode registerStore (writeFrequency registerStore
      (writeFrequency registerStore (UnitDDS.init (registers 4 0)) false 100000).2
      true 1000).2 Mode.Sin).2.bus =
      [BusOp.write 0x30 [0x80, 0x28, 0xF5, 0xC3], BusOp.write 0x30 [0xC0, 0x00, 0x68, 0xDC],
       BusOp.read 0x20 1, BusOp.read 0x21 1, BusOp.write 0x20 [0x81],
       BusOp.write 0x21 [0x80],
       BusOp.write 0x30 [0x80, 0x0E, 0x1D, 0xD0], BusOp.write 0x30 [0xC0, 0x00, 0x68, 0xDC]] := by
  decide

/-! ## Bytes of the mode and control registers -/

theorem readRegister8_lt (t : Transport σ) (u : UnitDDS σ) (reg v : Nat)
    (h : (readRegister8 t u reg).1 = some v) : v < 256 := by
  simp only [readRegister8, Option.map_eq_some'] at h
  obtain ⟨a, -, rfl⟩ := h
  exact Nat.mod_lt _ (by norm_num)

theorem byte_and_mask (c k : Nat) (hk : 255 &&& k = k) : (c % 256) &&& k = c &&& k := by
  have h : c % 256 = c &&& 255 := (Nat.and_pow_two_sub_one_eq_mod c 8).symm
  rw [h, Nat.land_assoc, hk]

set_option maxRecDepth 100000 in
theorem mode_byte_low_bits : ∀ v < 256, ∀ m < 8,
    ((((v &&& 0xF8) ||| m) % 256 ||| 0x80) % 256 % 256) &&& 0x07 = m := by
  decide

/-! ## The driver in front of the register store -/

theorem registerStore_write8_device (u : UnitDDS (Nat → Nat)) (reg v r : Nat) :
    (write_register8 registerStore u reg v).2.device r =
      if r = reg then (v ||| 0x80) % 256 else u.device r := by
  simp only [write_register8, writeRegister8, writeRegister, registerStore, List.length_singleton]
  by_cases h : r = reg
  · subst h; simp
  · rw [if_neg h, if_neg (by omega)]

theorem registerStore_writeFrequency_device (u : UnitDDS (Nat → Nat)) (select : Bool)
    (freq r : Nat) (hr : r < 0x30) :
    (writeFrequency registerStore u select freq).2.device r = u.device r := by
  unfold writeFrequency
  split
  · rfl
  · simp only [writeRegister, registerStore, UnitDDS.set_freq, FREQUENCY_REG]
    simp
    intro h; omega

theorem writeFrequency_wellFormed (t : Transport σ) (u : UnitDDS σ) (hu : u.WellFormed)
    (select : Bool) (freq : Nat) : (writeFrequency t u select freq).2.WellFormed := by
  intro b
  by_cases h : freq ≤ 1000000
  · rw [writeFrequency_freq t u select freq h b]
    have hf : freq % 2 ^ 16 < 2 ^ 16 := Nat.mod_lt _ (by norm_num)
    split
    · split
      · exact hf
      · norm_num
    · exact hu b
  · rw [writeFrequency_invalid t u select freq (by omega)]
    exact hu b

theorem writeMode_registerStore (u : UnitDDS (Nat → Nat)) (hu : u.WellFormed) (mode : Mode) :
    (writeMode registerStore u mode).1 = true ∧
    (writeMode registerStore u mode).2.device MODE_REG =
      ((((u.device MODE_REG % 256) &&& 0xF8) ||| mode.to_underlying) % 256 ||| 0x80) % 256 ∧
    (writeMode registerStore u mode).2.device CONTROL_REG =
      ((u.device CONTROL_REG % 256) ||| 0x80) % 256 ∧
    (writeMode registerStore u mode).2.WellFormed := by
  have hr := (writeMode_reliable registerStore registerStore_reliable u hu mode
    (u.device MODE_REG % 256) (u.device CONTROL_REG % 256) rfl rfl).1
  refine ⟨hr, ?_⟩
  have hok : ∀ (s : UnitDDS (Nat → Nat)) reg x, (write_register8 registerStore s reg x).1 = true :=
    fun s reg x => rfl
  have hv : (readRegister8 registerStore u MODE_REG).1 = some (u.device MODE_REG % 256) := rfl
  have hc : (read_control registerStore (readRegister8 registerStore u MODE_REG).2).1 =
      some (u.device CONTROL_REG % 256) := rfl
  unfold writeMode
  simp only [hv, hc, hok, Bool.not_true, Bool.false_eq_true, if_false]
  generalize hs : (write_register8 registerStore (write_register8 registerStore
    (read_control registerStore (readRegister8 registerStore u MODE_REG).2).2 MODE_REG
      ((((u.device MODE_REG % 256) &&& 0xF8) ||| mode.to_underlying) % 256)).2
      CONTROL_REG (u.device CONTROL_REG % 256)).2 = s
  have hsm : s.device MODE_REG =
      ((((u.device MODE_REG % 256) &&& 0xF8) ||| mode.to_underlying) % 256 ||| 0x80) % 256 := by
    rw [← hs, registerStore_write8_device, registerStore_write8_device]
    simp [CONTROL_REG, MODE_REG]
  have hsc : s.device CONTROL_REG = ((u.device CONTROL_REG % 256) ||| 0x80) % 256 := by
    rw [← hs, registerStore_write8_device]
    simp
  have hsw : s.WellFormed := by rw [← hs]; exact hu
  have hm48 : MODE_REG < 0x30 := by decide
  have hc48 : CONTROL_REG < 0x30 := by decide
  split
  · have r0 : (writeFrequency registerStore s false (s._freq false)).1 = true := by
      rw [writeFrequency_result registerStore s false _ (by have := hsw false; omega)]; rfl
    simp only [writeFrequency0, writeFrequency1, r0, Bool.not_true, Bool.false_eq_true,
      if_false]
    refine ⟨?_, ?_, ?_⟩
    · rw [registerStore_writeFrequency_device _ _ _ _ hm48,
        registerStore_writeFrequency_device _ _ _ _ hm48, hsm]
    · rw [registerStore_writeFrequency_device _ _ _ _ hc48,
        registerStore_writeFrequency_device _ _ _ _ hc48, hsc]
    · exact writeFrequency_wellFormed _ _ (writeFrequency_wellFormed _ _ hsw _ _) _ _
  · exact ⟨hsm, hsc, hsw⟩

/-! ## Claims on the mode register -/

/-- C11. In front of the register store (every operation succeeds, a read
returns the byte last written), for every mode among Sin, Triangle, Square,
Sawtooth and DC, every register contents and every driver state with a 16-bit
cache, `writeMode(mode)` returns true and a following `readMode` returns true
with that same mode. -/
theorem writeMode_then_readMode (u : UnitDDS (Nat → Nat)) (hu : u.WellFormed) (mode : Mode)
    (hm : mode ∈ [Mode.Sin, Mode.Triangle, Mode.Square, Mode.Sawtooth, Mode.DC]) :
    (writeMode registerStore u mode).1 = true ∧
    (readMode registerStore (writeMode registerStore u mode).2).1 = true ∧
    (readMode registerStore (writeMode registerStore u mode).2).2.1 = mode := by
  obtain ⟨h1, h2, -, -⟩ := writeMode_registerStore u hu mode
  refine ⟨h1, rfl, ?_⟩
  have hlt : mode.to_underlying < 8 := by
    simp only [List.mem_cons, List.mem_singleton, List.mem_nil_iff, or_false] at hm
    rcases hm with rfl | rfl | rfl | rfl | rfl <;> decide
  have hb := mode_byte_low_bits (u.device MODE_REG % 256) (Nat.mod_lt _ (by norm_num))
    mode.to_underlying hlt
  show (⟨(writeMode registerStore u mode).2.device MODE_REG % 256 &&& 0x07⟩ : Mode) = mode
  rw [h2, hb]

/-- C11 from Square (mode byte 3) to Sawtooth. -/
theorem writeMode_then_readMode_witness :
    (writeMode registerStore (UnitDDS.init (registers 3 0)) Mode.Sawtooth).1 = true ∧
    (readMode registerStore
      (writeMode registerStore (UnitDDS.init (registers 3 0)) Mode.Sawtooth).2).1 = true ∧
    (readMode registerStore
      (writeMode registerStore (UnitDDS.init (registers 3 0)) Mode.Sawtooth).2).2.1 =
        Mode.Sawtooth :=
  writeMode_then_readMode (UnitDDS.init (registers 3 0)) (init_wellFormed _) Mode.Sawtooth
    (by decide)

/-- C12. When the read of the mode register fails, `readMode` returns false with
the mode `Reserved`; when it succeeds with the byte `v`, `readMode` returns true
with the mode whose numeric value is `v & 0x07`. -/
theorem readMode_contract (t : Transport σ) (u : UnitDDS σ) :
    ((readRegister8 t u MODE_REG).1 = none →
      (readMode t u).1 = false ∧ (readMode t u).2.1 = Mode.Reserved) ∧
    (∀ v, (readRegister8 t u MODE_REG).1 = some v →
      (readMode t u).1 = true ∧ (readMode t u).2.1.to_underlying = v &&& 0x07) := by
  constructor
  · intro h
    simp only [readMode, h, and_self]
  · intro v h
    simp only [readMode, h, and_self]

/-- C12 on a dead bus (the read fails) and on the register store holding the
mode byte 0x83 (the read gives Square). -/
theorem readMode_contract_witness :
    ((readMode deadBus (UnitDDS.init ())).1 = false ∧
      (readMode deadBus (UnitDDS.init ())).2.1 = Mode.Reserved) ∧
    ((readMode registerStore (UnitDDS.init (registers 0x83 0))).1 = true ∧
      (readMode registerStore (UnitDDS.init (registers 0x83 0))).2.1.to_underlying
        = 0x83 &&& 0x07) :=
  ⟨(readMode_contract deadBus (UnitDDS.init ())).1 rfl,
   (readMode_contract registerStore (UnitDDS.init (registers 0x83 0))).2 0x83 rfl⟩

/-- C13 as stated fails: when the mode register holds 6, `readMode` succeeds and
yields the value 6, which is none of the six defined modes. -/
theorem readMode_yields_six :
    (readMode registerStore (UnitDDS.init (registers 6 0))).1 = true ∧
    (readMode registerStore (UnitDDS.init (registers 6 0))).2.1.to_underlying = 6 ∧
    ¬ (readMode registerStore (UnitDDS.init (registers 6 0))).2.1.isDefined := by
  decide

/-- C13, amended. For every byte `v` read from the mode register, a successful
`readMode` yields the value `v & 0x07`, which lies between 0 and 7; it is one of
the six defined modes exactly when `v & 0x07` is at most 5. -/
theorem readMode_range (t : Transport σ) (u : UnitDDS σ) (v : Nat)
    (h : (readRegister8 t u MODE_REG).1 = some v) :
    (readMode t u).1 = true ∧
    (readMode t u).2.1.to_underlying = v &&& 0x07 ∧
    (readMode t u).2.1.to_underlying ≤ 7 ∧
    ((readMode t u).2.1.isDefined ↔ v &&& 0x07 ≤ 5) := by
  have hm : (readMode t u).2.1 = ⟨v &&& 0x07⟩ := by simp only [readMode, h]
  refine ⟨by simp only [readMode, h], by rw [hm], by rw [hm]; exact Nat.and_le_right, ?_⟩
  rw [hm]
  exact Iff.rfl

/-- C13 amended, on the register store holding the mode byte 7. -/
theorem readMode_range_witness :
    (readMode registerStore (UnitDDS.init (registers 7 0))).1 = true ∧
    (readMode registerStore (UnitDDS.init (registers 7 0))).2.1.to_underlying = 7 &&& 0x07 ∧
    (readMode registerStore (UnitDDS.init (registers 7 0))).2.1.to_underlying ≤ 7 ∧
    ((readMode registerStore (UnitDDS.init (registers 7 0))).2.1.isDefined ↔ 7 &&& 0x07 ≤ 5) :=
  readMode_range registerStore (UnitDDS.init (registers 7 0)) 7 rfl

/-! ## Claims on the control register -/

theorem read_control_lt (t : Transport σ) (u : UnitDDS σ) (c : Nat)
    (h : (read_control t u).1 = some c) : c < 256 :=
  readRegister8_lt t u CONTROL_REG c h

theorem control_rmw_bus (t : Transport σ) (u : UnitDDS σ) (x : Nat) :
    (write_register8 t (read_control t u).2 CONTROL_REG x).2.bus =
      u.bus ++ [BusOp.read CONTROL_REG 1, BusOp.write CONTROL_REG [(x ||| 0x80) % 256]] := by
  simp [write_register8, writeRegister8, writeRegister, read_control, readRegister8]

set_option maxRecDepth 100000 in
theorem current_bits : ∀ c < 256, ∀ f p : Bool,
    (((c &&& 0xBF ||| (if f then 0x40 else 0x00)) ||| 0x80) % 256 &&& 0x40
        = (if f then 0x40 else 0x00) ∧
     ((c &&& 0xBF ||| (if f then 0x40 else 0x00)) ||| 0x80) % 256 &&& 0x3F = c &&& 0x3F) ∧
    (((c &&& 0xDF ||| (if p then 0x20 else 0x00)) ||| 0x80) % 256 &&& 0x20
        = (if p then 0x20 else 0x00) ∧
     ((c &&& 0xDF ||| (if p then 0x20 else 0x00)) ||| 0x80) % 256 &&& 0x5F = c &&& 0x5F) ∧
    (((c &&& 0x9F ||| (if f then 0x40 else 0x00) ||| (if p then 0x20 else 0x00)) ||| 0x80)
        % 256 &&& 0x40 = (if f then 0x40 else 0x00) ∧
     ((c &&& 0x9F ||| (if f then 0x40 else 0x00) ||| (if p then 0x20 else 0x00)) ||| 0x80)
        % 256 &&& 0x20 = (if p then 0x20 else 0x00) ∧
     ((c &&& 0x9F ||| (if f then 0x40 else 0x00) ||| (if p then 0x20 else 0x00)) ||| 0x80)
        % 256 &&& 0x1F = c &&& 0x1F) := by
  decide

set_option maxRecDepth 100000 in
theorem sleep_bits : ∀ c < 256, ∀ m d : Bool,
    ((c &&& 0xE7 ||| (if m then 0x10 else 0x00) ||| (if d then 0x08 else 0x00)) ||| 0x80)
        % 256 &&& 0x10 = (if m then 0x10 else 0x00) ∧
    ((c &&& 0xE7 ||| (if m then 0x10 else 0x00) ||| (if d then 0x08 else 0x00)) ||| 0x80)
        % 256 &&& 0x08 = (if d then 0x08 else 0x00) ∧
    ((c &&& 0xE7 ||| (if m then 0x10 else 0x00) ||| (if d then 0x08 else 0x00)) ||| 0x80)
        % 256 &&& 0x67 = c &&& 0x67 := by
  decide

set_option maxRecDepth 100000 in
theorem reset_wakeup_byte_bits : ∀ c < 256,
    (((c ||| 0x04) ||| 0x80) % 256 &&& 0x04 = 0x04 ∧
     ((c ||| 0x04) ||| 0x80) % 256 &&& 0x60 = c &&& 0x60 ∧
     ((c ||| 0x04) ||| 0x80) % 256 &&& 0x18 = c &&& 0x18) ∧
    (((c &&& 0xE3) ||| 0x80) % 256 &&& 0x1C = 0 ∧
     ((c &&& 0xE3) ||| 0x80) % 256 &&& 0x60 = c &&& 0x60) := by
  decide

/-- C14. With `c` the control byte read from the device,
`writeCurrentFrequency(f)` transmits a control byte whose bit 0x40 is `f` and
whose bits 0x3F are those of `c`; `writeCurrentPhase(p)` one whose bit 0x20 is
`p` and whose bits 0x5F are those of `c`; `writeCurrent(f, p)` one whose bits
0x40 and 0x20 are `f` and `p` and whose bits 0x1F are those of `c`.  Each call
puts one read and exactly one write of the control register on the bus. -/
theorem writeCurrent_bits (t : Transport σ) (u : UnitDDS σ) (c : Nat)
    (hc : (read_control t u).1 = some c) (f p : Bool) :
    (∃ b, (writeCurrentFrequency t u f).2.bus =
        u.bus ++ [BusOp.read CONTROL_REG 1, BusOp.write CONTROL_REG [b]] ∧
      b &&& 0x40 = (if f then 0x40 else 0x00) ∧ b &&& 0x3F = c &&& 0x3F) ∧
    (∃ b, (writeCurrentPhase t u p).2.bus =
        u.bus ++ [BusOp.read CONTROL_REG 1, BusOp.write CONTROL_REG [b]] ∧
      b &&& 0x20 = (if p then 0x20 else 0x00) ∧ b &&& 0x5F = c &&& 0x5F) ∧
    (∃ b, (writeCurrent t u f p).2.bus =
        u.bus ++ [BusOp.read CONTROL_REG 1, BusOp.write CONTROL_REG [b]] ∧
      b &&& 0x40 = (if f then 0x40 else 0x00) ∧ b &&& 0x20 = (if p then 0x20 else 0x00) ∧
      b &&& 0x1F = c &&& 0x1F) := by
  obtain ⟨h1, h2, h3⟩ := current_bits c (read_control_lt t u c hc) f p
  refine ⟨⟨_, ?_, h1⟩, ⟨_, ?_, h2⟩, ⟨_, ?_, h3⟩⟩
  · simp only [writeCurrentFrequency, hc]; exact control_rmw_bus t u _
  · simp only [writeCurrentPhase, hc]; exact control_rmw_bus t u _
  · simp only [writeCurrent, hc]; exact control_rmw_bus t u _

/-- C14 on the register store with the control byte 0x3F, selecting frequency
bank 1 and phase bank 0. -/
theorem writeCurrent_bits_witness :
    (∃ b, (writeCurrentFrequency registerStore (UnitDDS.init (registers 0 0x3F)) true).2.bus =
        (UnitDDS.init (registers 0 0x3F)).bus ++
          [BusOp.read CONTROL_REG 1, BusOp.write CONTROL_REG [b]] ∧
      b &&& 0x40 = (if true then 0x40 else 0x00) ∧ b &&& 0x3F = 0x3F &&& 0x3F) ∧
    (∃ b, (writeCurrentPhase registerStore (UnitDDS.init (registers 0 0x3F)) false).2.bus =
        (UnitDDS.init (registers 0 0x3F)).bus ++
          [BusOp.read CONTROL_REG 1, BusOp.write CONTROL_REG [b]] ∧
      b &&& 0x20 = (if false then 0x20 else 0x00) ∧ b &&& 0x5F = 0x3F &&& 0x5F) ∧
    (∃ b, (writeCurrent registerStore (UnitDDS.init (registers 0 0x3F)) true false).2.bus =
        (UnitDDS.init (registers 0 0x3F)).bus ++
          [BusOp.read CONTROL_REG 1, BusOp.write CONTROL_REG [b]] ∧
      b &&& 0x40 = (if true then 0x40 else 0x00) ∧
      b &&& 0x20 = (if false then 0x20 else 0x00) ∧
      b &&& 0x1F = 0x3F &&& 0x1F) :=
  writeCurrent_bits registerStore (UnitDDS.init (registers 0 0x3F)) 0x3F rfl true false

/-- C15. `sleep(false, false)` returns false and puts nothing on the bus.  For
every other pair of flags, with `c` the control byte read, `sleep` transmits one
control byte whose bit 0x10 is `mclk`, whose bit 0x08 is `DAC` and whose bits
0x67 (so 0x60 and 0x04 among them) are those of `c`. -/
theorem sleep_contract (t : Transport σ) (u : UnitDDS σ) :
    ((sleep t u false false).1 = false ∧ (sleep t u false false).2.bus = u.bus) ∧
    (∀ (mclk DAC : Bool) (c : Nat), (mclk || DAC) = true → (read_control t u).1 = some c →
      ∃ b, (sleep t u mclk DAC).2.bus =
          u.bus ++ [BusOp.read CONTROL_REG 1, BusOp.write CONTROL_REG [b]] ∧
        b &&& 0x10 = (if mclk then 0x10 else 0x00) ∧
        b &&& 0x08 = (if DAC then 0x08 else 0x00) ∧
        b &&& 0x67 = c &&& 0x67) := by
  refine ⟨⟨rfl, rfl⟩, ?_⟩
  intro mclk DAC c hflags hc
  have hb := sleep_bits c (read_control_lt t u c hc) mclk DAC
  refine ⟨_, ?_, hb⟩
  have hg : (!mclk && !DAC) = false := by cases mclk <;> cases DAC <;> simp_all
  simp only [sleep, hg, hc, Bool.false_eq_true, if_false]
  exact control_rmw_bus t u _

/-- C15 on the register store whose control byte has 0x08 set: `sleep(true,
false)` transmits 0x90, bit 0x10 set and bit 0x08 cleared; `sleep(false, false)`
transmits nothing. -/
theorem sleep_contract_witness :
    ((sleep registerStore (UnitDDS.init (registers 0 0x08)) false false).1 = false ∧
      (sleep registerStore (UnitDDS.init (registers 0 0x08)) false false).2.bus =
        (UnitDDS.init (registers 0 0x08)).bus) ∧
    (∃ b, (sleep registerStore (UnitDDS.init (registers 0 0x08)) true false).2.bus =
        (UnitDDS.init (registers 0 0x08)).bus ++
          [BusOp.read CONTROL_REG 1, BusOp.write CONTROL_REG [b]] ∧
      b &&& 0x10 = (if true then 0x10 else 0x00) ∧
      b &&& 0x08 = (if false then 0x08 else 0x00) ∧
      b &&& 0x67 = 0x08 &&& 0x67) :=
  ⟨(sleep_contract registerStore (UnitDDS.init (registers 0 0x08))).1,
   (sleep_contract registerStore (UnitDDS.init (registers 0 0x08))).2 true false 0x08 rfl rfl⟩

theorem registerStore_reset_device (u : UnitDDS (Nat → Nat)) :
    (reset registerStore u).2.device CONTROL_REG =
      (((u.device CONTROL_REG % 256) ||| 0x04) ||| 0x80) % 256 := by
  have h : reset registerStore u = write_register8 registerStore
      (read_control registerStore u).2 CONTROL_REG (u.device CONTROL_REG % 256 ||| 0x04) := rfl
  rw [h, registerStore_write8_device, if_pos rfl]

theorem registerStore_wakeup_device (u : UnitDDS (Nat → Nat)) :
    (wakeup registerStore u).2.device CONTROL_REG =
      (((u.device CONTROL_REG % 256) &&& 0xE3) ||| 0x80) % 256 := by
  have h : (wakeup registerStore u).2 = (write_register8 registerStore
      (read_control registerStore u).2 CONTROL_REG (u.device CONTROL_REG % 256 &&& 0xE3)).2 :=
    rfl
  rw [h, registerStore_write8_device, if_pos rfl]

/-- C16. In front of the register store, for every starting control byte:
`reset()` succeeds and leaves bit 0x04 set and the bits 0x60 and 0x18 as they
were; `wakeup()` succeeds and leaves the bits 0x1C all zero and the bits 0x60 as
they were; hence after any sequence of `sleep` and `reset` calls a `wakeup()`
leaves a control register `c` with `c & 0x1C = 0`. -/
theorem reset_wakeup_bits (u : UnitDDS (Nat → Nat)) (calls : List PowerCall) :
    ((reset registerStore u).1 = true ∧
      (reset registerStore u).2.device CONTROL_REG &&& 0x04 = 0x04 ∧
      (reset registerStore u).2.device CONTROL_REG &&& 0x60 = u.device CONTROL_REG &&& 0x60 ∧
      (reset registerStore u).2.device CONTROL_REG &&& 0x18 = u.device CONTROL_REG &&& 0x18) ∧
    ((wakeup registerStore u).1 = true ∧
      (wakeup registerStore u).2.device CONTROL_REG &&& 0x1C = 0 ∧
      (wakeup registerStore u).2.device CONTROL_REG &&& 0x60 = u.device CONTROL_REG &&& 0x60) ∧
    (wakeup registerStore (runPowerCalls calls u)).2.device CONTROL_REG &&& 0x1C = 0 := by
  have hlt : ∀ s : UnitDDS (Nat → Nat), s.device CONTROL_REG % 256 < 256 :=
    fun s => Nat.mod_lt _ (by norm_num)
  obtain ⟨⟨r1, r2, r3⟩, w1, w2⟩ := reset_wakeup_byte_bits _ (hlt u)
  refine ⟨⟨rfl, ?_, ?_, ?_⟩, ⟨rfl, ?_, ?_⟩, ?_⟩
  · rw [registerStore_reset_device, r1]
  · rw [registerStore_reset_device, r2, byte_and_mask _ _ (by decide)]
  · rw [registerStore_reset_device, r3, byte_and_mask _ _ (by decide)]
  · rw [registerStore_wakeup_device, w1]
  · rw [registerStore_wakeup_device, w2, byte_and_mask _ _ (by decide)]
  · rw [registerStore_wakeup_device]
    exact (reset_wakeup_byte_bits _ (hlt _)).2.1

/-- The sequence of the test: `sleep(true, false)`, `sleep(false, true)`,
`sleep()`, `reset()` gives the control bytes' bits 0x1C all set, and `wakeup()`
clears them. -/
theorem sleep_reset_wakeup_run :
    (runPowerCalls [PowerCall.sleep true false, PowerCall.sleep false true,
        PowerCall.sleep true true, PowerCall.reset]
      (UnitDDS.init (registers 0 0x60))).device CONTROL_REG = 0xFC ∧
    (wakeup registerStore (runPowerCalls [PowerCall.sleep true false,
        PowerCall.sleep false true, PowerCall.sleep true true, PowerCall.reset]
      (UnitDDS.init (registers 0 0x60)))).2.device CONTROL_REG = 0xE0 := by
  decide

/-- C17. For every mode, bank and `deg`, and every `freq > 1,000,000`,
`writeOutput(mode, bank, freq, deg)` returns false, puts no transaction on the
bus (no read, no write) and leaves the frequency cache and the rest of the
state as they were. -/
theorem writeOutput_invalid (t : Transport σ) (u : UnitDDS σ) (mode : Mode) (select : Bool)
    (freq deg : Nat) (h : 1000000 < freq) :
    (writeOutput t u mode select freq deg).1 = false ∧
    (writeOutput t u mode select freq deg).2.bus = u.bus ∧
    (writeOutput t u mode select freq deg).2._freq = u._freq ∧
    (writeOutput t u mode select freq deg).2.device = u.device := by
  have hv : is_valid_frequency freq = false := by
    simp [is_valid_frequency, MAXIMUM_FREQ]; omega
  simp [writeOutput, hv]

/-- C17 at the input of the specification: `writeOutput(DC, bank 0, 2000000, 0)`. -/
theorem writeOutput_invalid_witness :
    (writeOutput registerStore (UnitDDS.init (registers 0 0)) Mode.DC false 2000000 0).1
      = false ∧
    (writeOutput registerStore (UnitDDS.init (registers 0 0)) Mode.DC false 2000000 0).2.bus
      = (UnitDDS.init (registers 0 0)).bus ∧
    (writeOutput registerStore (UnitDDS.init (registers 0 0)) Mode.DC false 2000000 0).2._freq
      = (UnitDDS.init (registers 0 0))._freq ∧
    (writeOutput registerStore (UnitDDS.init (registers 0 0)) Mode.DC false 2000000 0).2.device
      = (UnitDDS.init (registers 0 0)).device :=
  writeOutput_invalid registerStore (UnitDDS.init (registers 0 0)) Mode.DC false 2000000 0
    (by decide)

/-! ## Claims on `writeOutput` -/

theorem writeFrequencyAndPhase_result (t : Transport σ) (u : UnitDDS σ)
    (select_freq : Bool) (freq : Nat) (select_phase : Bool) (deg : Nat)
    (h : freq ≤ 1000000) :
    (writeFrequencyAndPhase t u select_freq freq select_phase deg).1 =
      (t.writeRegister u.device FREQUENCY_REG
        [((calculate_ftw freq >>> 24) &&& 0x0F) ||| (if select_freq then 0xC0 else 0x80),
         (calculate_ftw freq >>> 16) &&& 0xFF,
         (calculate_ftw freq >>> 8) &&& 0xFF,
         calculate_ftw freq &&& 0xFF,
         ((calculate_phase deg >>> 8) &&& 0x07) ||| (if select_phase then 0xC0 else 0x80),
         calculate_phase deg &&& 0xFF]).1 := by
  simp only [writeFrequencyAndPhase, is_valid_of_le freq h, writeRegister, UnitDDS.set_freq]
  generalize t.writeRegister u.device FREQUENCY_REG _ = r
  obtain ⟨ok, d⟩ := r
  cases ok <;> simp

theorem writeFrequencyAndPhase_freq (t : Transport σ) (u : UnitDDS σ)
    (select_freq : Bool) (freq : Nat) (select_phase : Bool) (deg : Nat)
    (h : freq ≤ 1000000) (b : Bool) :
    (writeFrequencyAndPhase t u select_freq freq select_phase deg).2._freq b =
      if b = select_freq then
        (if (writeFrequencyAndPhase t u select_freq freq select_phase deg).1
          then freq % 2 ^ 16 else 0)
      else u._freq b := by
  simp only [writeFrequencyAndPhase, is_valid_of_le freq h, writeRegister, UnitDDS.set_freq]
  generalize t.writeRegister u.device FREQUENCY_REG _ = r
  obtain ⟨ok, d⟩ := r
  by_cases hb : b = select_freq <;> cases ok <;> simp [hb]

theorem writeFrequencyAndPhase_wellFormed (t : Transport σ) (u : UnitDDS σ)
    (hu : u.WellFormed) (select_freq : Bool) (freq : Nat) (select_phase : Bool) (deg : Nat)
    (h : freq ≤ 1000000) :
    (writeFrequencyAndPhase t u select_freq freq select_phase deg).2.WellFormed := by
  intro b
  rw [writeFrequencyAndPhase_freq t u select_freq freq select_phase deg h b]
  have hf : freq % 2 ^ 16 < 2 ^ 16 := Nat.mod_lt _ (by norm_num)
  split
  · split
    · exact hf
    · norm_num
  · exact hu b

theorem registerStore_writeFrequencyAndPhase_device (u : UnitDDS (Nat → Nat))
    (select_freq : Bool) (freq : Nat) (select_phase : Bool) (deg r : Nat) (hr : r < 0x30) :
    (writeFrequencyAndPhase registerStore u select_freq freq select_phase deg).2.device r =
      u.device r := by
  unfold writeFrequencyAndPhase
  split
  · rfl
  · simp only [writeRegister, registerStore, UnitDDS.set_freq, FREQUENCY_REG]
    simp
    intro h; omega

theorem registerStore_writeCurrent (u : UnitDDS (Nat → Nat)) (f p : Bool) :
    (writeCurrent registerStore u f p).1 = true ∧
    (writeCurrent registerStore u f p).2.device CONTROL_REG =
      ((u.device CONTROL_REG % 256 &&& 0x9F ||| (if f then 0x40 else 0x00) |||
        (if p then 0x20 else 0x00)) ||| 0x80) % 256 ∧
    (writeCurrent registerStore u f p).2.device MODE_REG = u.device MODE_REG := by
  have h : writeCurrent registerStore u f p = write_register8 registerStore
      (read_control registerStore u).2 CONTROL_REG
      (u.device CONTROL_REG % 256 &&& 0x9F ||| (if f then 0x40 else 0x00) |||
        (if p then 0x20 else 0x00)) := rfl
  refine ⟨rfl, ?_, ?_⟩
  · rw [h, registerStore_write8_device, if_pos rfl]
  · rw [h, registerStore_write8_device, if_neg (by decide)]
    rfl

/-- C18. In front of the register store, for every mode among Sin, Triangle,
Square, Sawtooth and DC, every bank, `deg` and `freq ≤ 1,000,000`, every register
contents and every driver state with a 16-bit cache,
`writeOutput(mode, bank, freq, deg)` returns true and afterwards the control
register has its bits 0x40 and 0x20 both equal to `bank` and the mode register
has its low three bits equal to `mode`. -/
theorem writeOutput_registers (u : UnitDDS (Nat → Nat)) (hu : u.WellFormed) (mode : Mode)
    (hm : mode ∈ [Mode.Sin, Mode.Triangle, Mode.Square, Mode.Sawtooth, Mode.DC])
    (select : Bool) (freq deg : Nat) (h : freq ≤ 1000000) :
    (writeOutput registerStore u mode select freq deg).1 = true ∧
    (writeOutput registerStore u mode select freq deg).2.device CONTROL_REG &&& 0x40 =
      (if select then 0x40 else 0x00) ∧
    (writeOutput registerStore u mode select freq deg).2.device CONTROL_REG &&& 0x20 =
      (if select then 0x20 else 0x00) ∧
    (writeOutput registerStore u mode select freq deg).2.device MODE_REG &&& 0x07 =
      mode.to_underlying := by
  have ha1 : (writeFrequencyAndPhase registerStore u select freq select deg).1 = true := by
    rw [writeFrequencyAndPhase_result registerStore u select freq select deg h]; rfl
  have haw := writeFrequencyAndPhase_wellFormed registerStore u hu select freq select deg h
  obtain ⟨hb1, hbm, -, -⟩ := writeMode_registerStore _ haw mode
  have hout : writeOutput registerStore u mode select freq deg =
      writeCurrent registerStore (writeMode registerStore
        (writeFrequencyAndPhase registerStore u select freq select deg).2 mode).2
        select select := by
    simp only [writeOutput, is_valid_of_le freq h, ha1, hb1, Bool.not_true,
      Bool.false_eq_true, if_false]
  obtain ⟨hc1, hcc, hcm⟩ := registerStore_writeCurrent (writeMode registerStore
    (writeFrequencyAndPhase registerStore u select freq select deg).2 mode).2 select select
  have hlt : mode.to_underlying < 8 := by
    simp only [List.mem_cons, List.mem_singleton, List.mem_nil_iff, or_false] at hm
    rcases hm with rfl | rfl | rfl | rfl | rfl <;> decide
  obtain ⟨-, -, k1, k2, -⟩ := current_bits _
    (Nat.mod_lt ((writeMode registerStore (writeFrequencyAndPhase registerStore u select freq
      select deg).2 mode).2.device CONTROL_REG) (by norm_num : 0 < 256)) select select
  rw [hout]
  refine ⟨hc1, ?_, ?_, ?_⟩
  · rw [hcc]; exact k1
  · rw [hcc]; exact k2
  · rw [hcm, hbm]
    have hb := mode_byte_low_bits
      ((writeFrequencyAndPhase registerStore u select freq select deg).2.device MODE_REG % 256)
      (Nat.mod_lt _ (by norm_num)) mode.to_underlying hlt
    rw [Nat.mod_mod] at hb
    exact hb

/-- C18 at the input of the specification: `writeOutput(Square, bank 1, 50000,
90)` on a device in Sawtooth. -/
theorem writeOutput_registers_witness :
    (writeOutput registerStore (UnitDDS.init (registers 4 0)) Mode.Square true 50000 90).1
      = true ∧
    (writeOutput registerStore (UnitDDS.init (registers 4 0)) Mode.Square true 50000 90).2.device
      CONTROL_REG &&& 0x40 = (if true then 0x40 else 0x00) ∧
    (writeOutput registerStore (UnitDDS.init (registers 4 0)) Mode.Square true 50000 90).2.device
      CONTROL_REG &&& 0x20 = (if true then 0x20 else 0x00) ∧
    (writeOutput registerStore (UnitDDS.init (registers 4 0)) Mode.Square true 50000 90).2.device
      MODE_REG &&& 0x07 = Mode.Square.to_underlying :=
  writeOutput_registers (UnitDDS.init (registers 4 0)) (init_wellFormed _) Mode.Square
    (by decide) true 50000 90 (by decide)

/-- C19 fails on the code at 100,000 Hz: on a device in Sawtooth,
`writeOutput(Sin, bank 0, 100000, 0)` succeeds, but the last frequency write
tagged for bank 0 is the re-sync of `writeMode` with the bytes `80 0E 1D D0`,
the word 925136 of `100000 mod 65536 = 34464` Hz, while `calculate_ftw(100000)`
is 2684355 (bytes `80 28 F5 C3`). -/
theorem writeOutput_resync_truncated :
    (writeOutput registerStore (UnitDDS.init (registers 4 0)) Mode.Sin false 100000 0).1
      = true ∧
    (writeOutput registerStore (UnitDDS.init (registers 4 0)) Mode.Sin false 100000 0).2.bus =
      [BusOp.write 0x30 [0x80, 0x28, 0xF5, 0xC3, 0x80, 0x00],
       BusOp.read 0x20 1, BusOp.read 0x21 1,
       BusOp.write 0x20 [0x81], BusOp.write 0x21 [0x80],
       BusOp.write 0x30 [0x80, 0x0E, 0x1D, 0xD0], BusOp.write 0x30 [0xC0, 0x00, 0x00, 0x00],
       BusOp.read 0x21 1, BusOp.write 0x21 [0x80]] ∧
    calculate_ftw 100000 = 0x28F5C3 ∧ calculate_ftw 34464 = 0x0E1DD0 := by
  decide

/-- The example of the specification, `writeOutput(Square, bank 1, 50000, 90)`
on a device in Sawtooth: the frame is `C0 14 7A E1 C2 00`, and the re-sync
rewrites bank 1 with `C0 14 7A E1`. -/
theorem writeOutput_square_example :
    (writeOutput registerStore (UnitDDS.init (registers 4 0)) Mode.Square true 50000 90).2.bus =
      [BusOp.write 0x30 [0xC0, 0x14, 0x7A, 0xE1, 0xC2, 0x00],
       BusOp.read 0x20 1, BusOp.read 0x21 1,
       BusOp.write 0x20 [0x83], BusOp.write 0x21 [0x80],
       BusOp.write 0x30 [0x80, 0x00, 0x00, 0x00], BusOp.write 0x30 [0xC0, 0x14, 0x7A, 0xE1],
       BusOp.read 0x21 1, BusOp.write 0x21 [0xE0]] := by
  decide

theorem writeFrequency_bus_extends (t : Transport σ) (u : UnitDDS σ) (select : Bool)
    (freq : Nat) : ∃ ops, (writeFrequency t u select freq).2.bus = u.bus ++ ops := by
  by_cases h : freq ≤ 1000000
  · exact ⟨_, writeFrequency_bus t u select freq h⟩
  · rw [writeFrequency_invalid t u select freq (by omega)]
    exact ⟨[], (List.append_nil _).symm⟩

theorem writeMode_bus_extends (t : Transport σ) (u : UnitDDS σ) (mode : Mode) :
    ∃ ops, (writeMode t u mode).2.bus = u.bus ++ ops := by
  rcases hv : (readRegister8 t u MODE_REG).1 with _ | v
  · simp only [writeMode, hv]
    exact ⟨_, rfl⟩
  · rcases hc : (read_control t (readRegister8 t u MODE_REG).2).1 with _ | c
    · simp only [writeMode, hv, hc]
      exact ⟨[BusOp.read MODE_REG 1, BusOp.read CONTROL_REG 1], by
        simp [read_control, readRegister8]⟩
    · simp only [writeMode, hv, hc]
      split
      · exact ⟨[BusOp.read MODE_REG 1, BusOp.read CONTROL_REG 1, BusOp.write MODE_REG
            [(((v &&& 0xF8) ||| mode.to_underlying) % 256 ||| 0x80) % 256]], by
          simp [read_control, readRegister8, write_register8, writeRegister8, writeRegister]⟩
      · generalize hs : (write_register8 t (write_register8 t
          (read_control t (readRegister8 t u MODE_REG).2).2 MODE_REG
            (((v &&& 0xF8) ||| mode.to_underlying) % 256)).2 CONTROL_REG c) = w2
        have hsb : w2.2.bus = u.bus ++ [BusOp.read MODE_REG 1, BusOp.read CONTROL_REG 1,
            BusOp.write MODE_REG [(((v &&& 0xF8) ||| mode.to_underlying) % 256 ||| 0x80) % 256],
            BusOp.write CONTROL_REG [(c ||| 0x80) % 256]] := by
          rw [← hs]
          simp [write_register8, writeRegister8, writeRegister, read_control, readRegister8]
        split
        · exact ⟨_, hsb⟩
        · split
          · obtain ⟨o1, h1⟩ := writeFrequency_bus_extends t w2.2 false (w2.2._freq false)
            simp only [writeFrequency0, writeFrequency1]
            split
            · exact ⟨_, by rw [h1, hsb, List.append_assoc]⟩
            · obtain ⟨o2, h2⟩ := writeFrequency_bus_extends t
                (writeFrequency t w2.2 false (w2.2._freq false)).2 true
                ((writeFrequency t w2.2 false (w2.2._freq false)).2._freq true)
              exact ⟨_, by rw [h2, h1, hsb, List.append_assoc, List.append_assoc]⟩
          · exact ⟨_, hsb⟩

theorem writeCurrent_bus_extends (t : Transport σ) (u : UnitDDS σ) (f p : Bool) :
    ∃ ops, (writeCurrent t u f p).2.bus = u.bus ++ ops := by
  rcases hc : (read_control t u).1 with _ | c
  · simp only [writeCurrent, hc]
    exact ⟨_, rfl⟩
  · simp only [writeCurrent, hc]
    exact ⟨_, control_rmw_bus t u _⟩

/-- C20. For `freq ≤ 1,000,000`, `writeOutput` runs `writeFrequencyAndPhase`,
then `writeMode`, then `writeCurrent`, and stops at the first failure.  If the
six-byte write fails it returns false with that write as its only transaction
(no read or write of the mode or control register).  If `writeMode` fails it
returns false in the state `writeMode` left, no transaction of `writeCurrent`
being issued.  Otherwise its result is that of `writeCurrent`.  In every case
the recorded transactions begin with the earlier ones and the six-byte write:
nothing is taken back. -/
theorem writeOutput_steps (t : Transport σ) (u : UnitDDS σ) (mode : Mode) (select : Bool)
    (freq deg : Nat) (h : freq ≤ 1000000) :
    ((writeFrequencyAndPhase t u select freq select deg).1 = false →
      (writeOutput t u mode select freq deg).1 = false ∧
      ∃ six, (writeOutput t u mode select freq deg).2.bus =
        u.bus ++ [BusOp.write FREQUENCY_REG six]) ∧
    ((writeFrequencyAndPhase t u select freq select deg).1 = true →
      (writeMode t (writeFrequencyAndPhase t u select freq select deg).2 mode).1 = false →
      (writeOutput t u mode select freq deg).1 = false ∧
      (writeOutput t u mode select freq deg).2 =
        (writeMode t (writeFrequencyAndPhase t u select freq select deg).2 mode).2) ∧
    ((writeFrequencyAndPhase t u select freq select deg).1 = true →
      (writeMode t (writeFrequencyAndPhase t u select freq select deg).2 mode).1 = true →
      writeOutput t u mode select freq deg =
        writeCurrent t (writeMode t (writeFrequencyAndPhase t u select freq select deg).2
          mode).2 select select) ∧
    (∃ six ops, (writeOutput t u mode select freq deg).2.bus =
      u.bus ++ BusOp.write FREQUENCY_REG six :: ops) := by
  obtain ⟨six, hab⟩ : ∃ six, (writeFrequencyAndPhase t u select freq select deg).2.bus =
      u.bus ++ [BusOp.write FREQUENCY_REG six] :=
    ⟨_, writeFrequencyAndPhase_bus t u select freq select deg h⟩
  have c1 : (writeFrequencyAndPhase t u select freq select deg).1 = false →
      writeOutput t u mode select freq deg =
        (false, (writeFrequencyAndPhase t u select freq select deg).2) := by
    intro ha
    simp only [writeOutput, is_valid_of_le freq h, ha, Bool.not_true, Bool.not_false,
      Bool.false_eq_true, if_false, if_true]
  have c2 : (writeFrequencyAndPhase t u select freq select deg).1 = true →
      (writeMode t (writeFrequencyAndPhase t u select freq select deg).2 mode).1 = false →
      writeOutput t u mode select freq deg =
        (false, (writeMode t (writeFrequencyAndPhase t u select freq select deg).2 mode).2) := by
    intro ha hb
    simp only [writeOutput, is_valid_of_le freq h, ha, hb, Bool.not_true, Bool.not_false,
      Bool.false_eq_true, if_false, if_true]
  have c3 : (writeFrequencyAndPhase t u select freq select deg).1 = true →
      (writeMode t (writeFrequencyAndPhase t u select freq select deg).2 mode).1 = true →
      writeOutput t u mode select freq deg =
        writeCurrent t (writeMode t (writeFrequencyAndPhase t u select freq select deg).2
          mode).2 select select := by
    intro ha hb
    simp only [writeOutput, is_valid_of_le freq h, ha, hb, Bool.not_true,
      Bool.false_eq_true, if_false]
  refine ⟨fun ha => ?_, fun ha hb => ?_, c3, ?_⟩
  · rw [c1 ha]
    exact ⟨rfl, six, hab⟩
  · rw [c2 ha hb]
    exact ⟨rfl, rfl⟩
  · obtain ⟨o1, h1⟩ := writeMode_bus_extends t
      (writeFrequencyAndPhase t u select freq select deg).2 mode
    obtain ⟨o2, h2⟩ := writeCurrent_bus_extends t
      (writeMode t (writeFrequencyAndPhase t u select freq select deg).2 mode).2 select select
    rcases ha : (writeFrequencyAndPhase t u select freq select deg).1 with _ | _
    · rw [c1 ha]
      exact ⟨six, [], hab⟩
    · rcases hb : (writeMode t (writeFrequencyAndPhase t u select freq select deg).2 mode).1
        with _ | _
      · rw [c2 ha hb]
        exact ⟨six, o1, by rw [h1, hab]; simp⟩
      · rw [c3 ha hb]
        exact ⟨six, o1 ++ o2, by rw [h2, h1, hab]; simp⟩

/-- C20 on three buses: on a dead bus `writeOutput` stops after the six-byte
write; on a bus whose reads fail it stops inside `writeMode`, after the read of
the mode register; on the register store it runs all three steps. -/
theorem writeOutput_steps_witness :
    ((writeOutput deadBus (UnitDDS.init ()) Mode.Sin false 1000 0).1 = false ∧
      ∃ six, (writeOutput deadBus (UnitDDS.init ()) Mode.Sin false 1000 0).2.bus =
        (UnitDDS.init ()).bus ++ [BusOp.write FREQUENCY_REG six]) ∧
    ((writeOutput writeOnlyBus (UnitDDS.init ()) Mode.Sin false 1000 0).1 = false ∧
      (writeOutput writeOnlyBus (UnitDDS.init ()) Mode.Sin false 1000 0).2 =
        (writeMode writeOnlyBus
          (writeFrequencyAndPhase writeOnlyBus (UnitDDS.init ()) false 1000 false 0).2
          Mode.Sin).2) ∧
    (writeOutput registerStore (UnitDDS.init (registers 0 0)) Mode.Sin false 1000 0 =
      writeCurrent registerStore (writeMode registerStore
        (writeFrequencyAndPhase registerStore (UnitDDS.init (registers 0 0))
          false 1000 false 0).2 Mode.Sin).2 false false) :=
  ⟨(writeOutput_steps deadBus (UnitDDS.init ()) Mode.Sin false 1000 0 (by decide)).1
      (by decide),
   (writeOutput_steps writeOnlyBus (UnitDDS.init ()) Mode.Sin false 1000 0 (by decide)).2.1
      (by decide) (by decide),
   (writeOutput_steps registerStore (UnitDDS.init (registers 0 0)) Mode.Sin false 1000 0
      (by decide)).2.2.1 (by decide) (by decide)⟩

/-- The transactions of the two failing runs: the dead bus sees the six-byte
write only; the bus whose reads fail sees it followed by the read of the mode
register, and no transaction on the control register. -/
theorem writeOutput_failing_runs :
    (writeOutput deadBus (UnitDDS.init ()) Mode.Sin false 1000 0).2.bus =
      [BusOp.write 0x30 [0x80, 0x00, 0x68, 0xDC, 0x80, 0x00]] ∧
    (writeOutput writeOnlyBus (UnitDDS.init ()) Mode.Sin false 1000 0).2.bus =
      [BusOp.write 0x30 [0x80, 0x00, 0x68, 0xDC, 0x80, 0x00], BusOp.read 0x20 1] := by
  decide

/-! ## The branches of `writeMode` -/

/-- Case analysis of `writeMode`: a property holds of its result as soon as it
holds of the result of each of the seven ways the call can end. -/
theorem writeMode_cases (t : Transport σ) (u : UnitDDS σ) (mode : Mode)
    (P : Bool × UnitDDS σ → Prop)
    (h1 : (readRegister8 t u MODE_REG).1 = none → P (false, (readRegister8 t u MODE_REG).2))
    (h2 : ∀ v, (readRegister8 t u MODE_REG).1 = some v →
      (read_control t (readRegister8 t u MODE_REG).2).1 = none →
      P (false, (read_control t (readRegister8 t u MODE_REG).2).2))
    (h3 : ∀ v c, (readRegister8 t u MODE_REG).1 = some v →
      (read_control t (readRegister8 t u MODE_REG).2).1 = some c →
      ∀ w1, w1 = write_register8 t (read_control t (readRegister8 t u MODE_REG).2).2 MODE_REG
        (((v &&& 0xF8) ||| mode.to_underlying) % 256) →
      (w1.1 = false → P (false, w1.2)) ∧
      ∀ w2, w2 = write_register8 t w1.2 CONTROL_REG c → w1.1 = true →
        (w2.1 = false → P (false, w2.2)) ∧
        (w2.1 = true → ¬ needsResync ⟨v &&& 0x07⟩ mode → P (true, w2.2)) ∧
        (w2.1 = true → needsResync ⟨v &&& 0x07⟩ mode →
          ((writeFrequency t w2.2 false (w2.2._freq false)).1 = false →
            P (false, (writeFrequency t w2.2 false (w2.2._freq false)).2)) ∧
          ((writeFrequency t w2.2 false (w2.2._freq false)).1 = true →
            P (writeFrequency t (writeFrequency t w2.2 false (w2.2._freq false)).2 true
              ((writeFrequency t w2.2 false (w2.2._freq false)).2._freq true))))) :
    P (writeMode t u mode) := by
  rcases hv : (readRegister8 t u MODE_REG).1 with _ | v
  · simp only [writeMode, hv]
    exact h1 hv
  · rcases hc : (read_control t (readRegister8 t u MODE_REG).2).1 with _ | c
    · simp only [writeMode, hv, hc]
      exact h2 v hv hc
    · obtain ⟨k1, k2⟩ := h3 v c hv hc _ rfl
      simp only [writeMode, hv, hc]
      rcases hw1 : (write_register8 t (read_control t (readRegister8 t u MODE_REG).2).2 MODE_REG
        (((v &&& 0xF8) ||| mode.to_underlying) % 256)).1 with _ | _
      · simp only [Bool.not_false, if_true]
        exact k1 hw1
      · obtain ⟨k3, k4, k5⟩ := k2 _ rfl hw1
        simp only [Bool.not_true, Bool.false_eq_true, if_false]
        rcases hw2 : (write_register8 t (write_register8 t
          (read_control t (readRegister8 t u MODE_REG).2).2 MODE_REG
          (((v &&& 0xF8) ||| mode.to_underlying) % 256)).2 CONTROL_REG c).1 with _ | _
        · simp only [Bool.not_false, if_true]
          exact k3 hw2
        · simp only [Bool.not_true, Bool.false_eq_true, if_false]
          split
          · next hcond =>
            simp only [Bool.and_eq_true, Bool.or_eq_true, beq_iff_eq, bne_iff_ne] at hcond
            obtain ⟨k6, k7⟩ := k5 hw2 hcond
            simp only [writeFrequency0, writeFrequency1]
            split
            · next hf => exact k6 (by simpa using hf)
            · next hf => exact k7 (by simpa using hf)
          · next hcond =>
            simp only [Bool.and_eq_true, Bool.or_eq_true, beq_iff_eq, bne_iff_ne] at hcond
            exact k4 hw2 hcond

theorem writeFrequency_bus_cases (t : Transport σ) (u : UnitDDS σ) (select : Bool)
    (freq : Nat) :
    (writeFrequency t u select freq).2.bus = u.bus ∨
    (writeFrequency t u select freq).2.bus =
      u.bus ++ [BusOp.write FREQUENCY_REG (frequencyFrame select freq)] := by
  by_cases h : freq ≤ 1000000
  · exact Or.inr (writeFrequency_bus t u select freq h)
  · rw [writeFrequency_invalid t u select freq (by omega)]
    exact Or.inl rfl

theorem writeMode_four_bus (t : Transport σ) (u : UnitDDS σ) (x c : Nat) :
    (write_register8 t (read_control t (readRegister8 t u MODE_REG).2).2 MODE_REG x).2.bus =
      u.bus ++ [BusOp.read MODE_REG 1, BusOp.read CONTROL_REG 1,
        BusOp.write MODE_REG [(x ||| 0x80) % 256]] ∧
    (write_register8 t (write_register8 t (read_control t (readRegister8 t u MODE_REG).2).2
        MODE_REG x).2 CONTROL_REG c).2.bus =
      u.bus ++ [BusOp.read MODE_REG 1, BusOp.read CONTROL_REG 1,
        BusOp.write MODE_REG [(x ||| 0x80) % 256],
        BusOp.write CONTROL_REG [(c ||| 0x80) % 256]] := by
  constructor <;>
    simp [write_register8, writeRegister8, writeRegister, read_control, readRegister8]

/-- After the two reads have succeeded, `writeMode` issues the mode write; when
that write fails nothing follows, otherwise the control write follows and after
it only writes to the frequency register. -/
theorem writeMode_trace_after_reads (t : Transport σ) (u : UnitDDS σ) (mode : Mode)
    (v c : Nat) (hv : (readRegister8 t u MODE_REG).1 = some v)
    (hc : (read_control t (readRegister8 t u MODE_REG).2).1 = some c) :
    ∃ ops, (writeMode t u mode).2.bus = u.bus ++ (BusOp.read MODE_REG 1 ::
        BusOp.read CONTROL_REG 1 ::
        BusOp.write MODE_REG [(((v &&& 0xF8) ||| mode.to_underlying) % 256 ||| 0x80) % 256] ::
        ops) ∧
      ((write_register8 t (read_control t (readRegister8 t u MODE_REG).2).2 MODE_REG
          (((v &&& 0xF8) ||| mode.to_underlying) % 256)).1 = false →
        ops = [] ∧ (writeMode t u mode).1 = false) ∧
      ((write_register8 t (read_control t (readRegister8 t u MODE_REG).2).2 MODE_REG
          (((v &&& 0xF8) ||| mode.to_underlying) % 256)).1 = true →
        ∃ rest, ops = BusOp.write CONTROL_REG [(c ||| 0x80) % 256] :: rest ∧
          ∀ op ∈ rest, ∃ bytes, op = BusOp.write FREQUENCY_REG bytes) := by
  obtain ⟨hb1, hb2⟩ := writeMode_four_bus t u (((v &&& 0xF8) ||| mode.to_underlying) % 256) c
  refine writeMode_cases t u mode (fun r => ∃ ops, r.2.bus = u.bus ++ (BusOp.read MODE_REG 1 ::
        BusOp.read CONTROL_REG 1 ::
        BusOp.write MODE_REG [(((v &&& 0xF8) ||| mode.to_underlying) % 256 ||| 0x80) % 256] ::
        ops) ∧
      ((write_register8 t (read_control t (readRegister8 t u MODE_REG).2).2 MODE_REG
          (((v &&& 0xF8) ||| mode.to_underlying) % 256)).1 = false →
        ops = [] ∧ r.1 = false) ∧
      ((write_register8 t (read_control t (readRegister8 t u MODE_REG).2).2 MODE_REG
          (((v &&& 0xF8) ||| mode.to_underlying) % 256)).1 = true →
        ∃ rest, ops = BusOp.write CONTROL_REG [(c ||| 0x80) % 256] :: rest ∧
          ∀ op ∈ rest, ∃ bytes, op = BusOp.write FREQUENCY_REG bytes)) ?_ ?_ ?_
  · intro h; rw [hv] at h; exact absurd h (by simp)
  · intro v1 _ h; rw [hc] at h; exact absurd h (by simp)
  · intro v1 c1 hv1 hc1 w1 hw1
    have ev : v1 = v := by rw [hv] at hv1; exact (Option.some.inj hv1).symm
    have ec : c1 = c := by rw [hc] at hc1; exact (Option.some.inj hc1).symm
    subst ev ec hw1
    refine ⟨fun hf => ⟨[], by simpa using hb1, fun _ => ⟨rfl, rfl⟩,
      fun ht => by rw [hf] at ht; exact absurd ht (by simp)⟩, ?_⟩
    intro w2 hw2 ht
    subst hw2
    have hnf : ∀ {α : Prop}, (write_register8 t (read_control t (readRegister8 t u MODE_REG).2).2
        MODE_REG (((v1 &&& 0xF8) ||| mode.to_underlying) % 256)).1 = false → α := by
      intro α hf; rw [ht] at hf; exact absurd hf (by simp)
    refine ⟨fun _ => ⟨[BusOp.write CONTROL_REG [(c1 ||| 0x80) % 256]], by simpa using hb2,
        fun hf => hnf hf, fun _ => ⟨[], rfl, by simp⟩⟩,
      fun _ _ => ⟨[BusOp.write CONTROL_REG [(c1 ||| 0x80) % 256]], by simpa using hb2,
        fun hf => hnf hf, fun _ => ⟨[], rfl, by simp⟩⟩, ?_⟩
    intro _ _
    generalize hs : (write_register8 t (write_register8 t
      (read_control t (readRegister8 t u MODE_REG).2).2 MODE_REG
      (((v1 &&& 0xF8) ||| mode.to_underlying) % 256)).2 CONTROL_REG c1).2 = s at hb2 ⊢
    have e0 := writeFrequency_bus_cases t s false (s._freq false)
    constructor
    · intro _
      rcases e0 with e0 | e0
      · exact ⟨[BusOp.write CONTROL_REG [(c1 ||| 0x80) % 256]], by (rw [e0, hb2]; try simp),
          fun hf => hnf hf, fun _ => ⟨[], rfl, by simp⟩⟩
      · exact ⟨[BusOp.write CONTROL_REG [(c1 ||| 0x80) % 256],
            BusOp.write FREQUENCY_REG (frequencyFrame false (s._freq false))],
          by (rw [e0, hb2]; try simp), fun hf => hnf hf,
          fun _ => ⟨[BusOp.write FREQUENCY_REG (frequencyFrame false (s._freq false))], rfl,
            by simp⟩⟩
    · intro _
      generalize hs0 : (writeFrequency t s false (s._freq false)).2 = s0 at e0 ⊢
      have e1 := writeFrequency_bus_cases t s0 true (s0._freq true)
      rcases e0 with e0 | e0 <;> rcases e1 with e1 | e1
      · exact ⟨[BusOp.write CONTROL_REG [(c1 ||| 0x80) % 256]], by (rw [e1, e0, hb2]; try simp),
          fun hf => hnf hf, fun _ => ⟨[], rfl, by simp⟩⟩
      · exact ⟨[BusOp.write CONTROL_REG [(c1 ||| 0x80) % 256],
            BusOp.write FREQUENCY_REG (frequencyFrame true (s0._freq true))],
          by (rw [e1, e0, hb2]; try simp), fun hf => hnf hf,
          fun _ => ⟨[BusOp.write FREQUENCY_REG (frequencyFrame true (s0._freq true))], rfl,
            by simp⟩⟩
      · exact ⟨[BusOp.write CONTROL_REG [(c1 ||| 0x80) % 256],
            BusOp.write FREQUENCY_REG (frequencyFrame false (s._freq false))],
          by (rw [e1, e0, hb2]; try simp), fun hf => hnf hf,
          fun _ => ⟨[BusOp.write FREQUENCY_REG (frequencyFrame false (s._freq false))], rfl,
            by simp⟩⟩
      · exact ⟨[BusOp.write CONTROL_REG [(c1 ||| 0x80) % 256],
            BusOp.write FREQUENCY_REG (frequencyFrame false (s._freq false)),
            BusOp.write FREQUENCY_REG (frequencyFrame true (s0._freq true))],
          by (rw [e1, e0, hb2]; try simp), fun hf => hnf hf,
          fun _ => ⟨[BusOp.write FREQUENCY_REG (frequencyFrame false (s._freq false)),
            BusOp.write FREQUENCY_REG (frequencyFrame true (s0._freq true))], rfl, by simp⟩⟩

set_option maxRecDepth 100000 in
theorem mode_write_byte : ∀ v < 256, ∀ m < 6,
    (((v &&& 0xF8) ||| m) % 256 ||| 0x80) % 256 = ((v &&& 0xF8) ||| m) ||| 0x80 ∧
    (((v &&& 0xF8) ||| m) ||| 0x80) &&& 0x78 = v &&& 0x78 ∧
    (((v &&& 0xF8) ||| m) ||| 0x80) &&& 0x07 = m := by
  decide

set_option maxRecDepth 100000 in
theorem control_write_byte : ∀ c < 256,
    (c ||| 0x80) % 256 = c ||| 0x80 ∧ (c ||| 0x80) &&& 0x7F = c &&& 0x7F := by
  decide

/-! ## Claims on the write protocol and on the number ranges -/

/-- C21. With `v` the mode byte and `c` the control byte read from the device
and a mode `m` in 0..5, `writeMode(m)` first writes `((v & 0xF8) | m) | 0x80` to
the mode register (bits 3..6 of `v` kept, low three bits `m`), then writes
`c | 0x80` to the control register (the bits below 0x80 being those of `c`), in
that order, followed by writes to the frequency register only; when the mode
write fails it returns false and neither the control write nor a frequency
write is issued. -/
theorem writeMode_order (t : Transport σ) (u : UnitDDS σ) (mode : Mode)
    (hm : mode.to_underlying ≤ 5) (v c : Nat)
    (hv : (readRegister8 t u MODE_REG).1 = some v)
    (hc : (read_control t (readRegister8 t u MODE_REG).2).1 = some c) :
    ((((v &&& 0xF8) ||| mode.to_underlying) ||| 0x80) &&& 0x78 = v &&& 0x78 ∧
      (((v &&& 0xF8) ||| mode.to_underlying) ||| 0x80) &&& 0x07 = mode.to_underlying ∧
      (c ||| 0x80) &&& 0x7F = c &&& 0x7F) ∧
    ∃ ops, (writeMode t u mode).2.bus = u.bus ++ (BusOp.read MODE_REG 1 ::
        BusOp.read CONTROL_REG 1 ::
        BusOp.write MODE_REG [((v &&& 0xF8) ||| mode.to_underlying) ||| 0x80] :: ops) ∧
      ((t.writeRegister (read_control t (readRegister8 t u MODE_REG).2).2.device MODE_REG
          [((v &&& 0xF8) ||| mode.to_underlying) ||| 0x80]).1 = false →
        ops = [] ∧ (writeMode t u mode).1 = false) ∧
      ((t.writeRegister (read_control t (readRegister8 t u MODE_REG).2).2.device MODE_REG
          [((v &&& 0xF8) ||| mode.to_underlying) ||| 0x80]).1 = true →
        ∃ rest, ops = BusOp.write CONTROL_REG [c ||| 0x80] :: rest ∧
          ∀ op ∈ rest, ∃ bytes, op = BusOp.write FREQUENCY_REG bytes) := by
  obtain ⟨e1, b1, b2⟩ := mode_write_byte v (readRegister8_lt t u MODE_REG v hv)
    mode.to_underlying (by omega)
  obtain ⟨e2, b3⟩ := control_write_byte c (read_control_lt t _ c hc)
  refine ⟨⟨b1, b2, b3⟩, ?_⟩
  obtain ⟨ops, hbus, hf, ht⟩ := writeMode_trace_after_reads t u mode v c hv hc
  have hw : (write_register8 t (read_control t (readRegister8 t u MODE_REG).2).2 MODE_REG
      (((v &&& 0xF8) ||| mode.to_underlying) % 256)).1 =
      (t.writeRegister (read_control t (readRegister8 t u MODE_REG).2).2.device MODE_REG
        [((v &&& 0xF8) ||| mode.to_underlying) ||| 0x80]).1 := by
    rw [← e1]; rfl
  rw [e1] at hbus
  rw [hw] at hf ht
  rw [e2] at ht
  exact ⟨ops, hbus, hf, ht⟩

/-- C21 on the register store holding the mode byte 0x7B and the control byte
0x15, for the mode Sin. -/
theorem writeMode_order_witness :
    ((((0x7B &&& 0xF8) ||| Mode.Sin.to_underlying) ||| 0x80) &&& 0x78 = 0x7B &&& 0x78 ∧
      (((0x7B &&& 0xF8) ||| Mode.Sin.to_underlying) ||| 0x80) &&& 0x07
        = Mode.Sin.to_underlying ∧
      (0x15 ||| 0x80) &&& 0x7F = 0x15 &&& 0x7F) ∧
    ∃ ops, (writeMode registerStore (UnitDDS.init (registers 0x7B 0x15)) Mode.Sin).2.bus =
        (UnitDDS.init (registers 0x7B 0x15)).bus ++ (BusOp.read MODE_REG 1 ::
        BusOp.read CONTROL_REG 1 ::
        BusOp.write MODE_REG [((0x7B &&& 0xF8) ||| Mode.Sin.to_underlying) ||| 0x80] :: ops) ∧
      ((registerStore.writeRegister (read_control registerStore (readRegister8 registerStore
          (UnitDDS.init (registers 0x7B 0x15)) MODE_REG).2).2.device MODE_REG
          [((0x7B &&& 0xF8) ||| Mode.Sin.to_underlying) ||| 0x80]).1 = false →
        ops = [] ∧
        (writeMode registerStore (UnitDDS.init (registers 0x7B 0x15)) Mode.Sin).1 = false) ∧
      ((registerStore.writeRegister (read_control registerStore (readRegister8 registerStore
          (UnitDDS.init (registers 0x7B 0x15)) MODE_REG).2).2.device MODE_REG
          [((0x7B &&& 0xF8) ||| Mode.Sin.to_underlying) ||| 0x80]).1 = true →
        ∃ rest, ops = BusOp.write CONTROL_REG [0x15 ||| 0x80] :: rest ∧
          ∀ op ∈ rest, ∃ bytes, op = BusOp.write FREQUENCY_REG bytes) :=
  writeMode_order registerStore (UnitDDS.init (registers 0x7B 0x15)) Mode.Sin (by decide)
    0x7B 0x15 rfl rfl

/-- The run behind C21: on the register store the mode byte 0x7B and the
control byte 0x15 give, for the mode Sin, the writes 0xF9 and 0x95. -/
theorem writeMode_order_run :
    (writeMode registerStore (UnitDDS.init (registers 0x7B 0x15)) Mode.Sin).2.bus =
      [BusOp.read 0x20 1, BusOp.read 0x21 1, BusOp.write 0x20 [0xF9],
       BusOp.write 0x21 [0x95]] := by
  decide

theorem marker_bit (x : Nat) : ((x ||| 0x80) % 256) &&& 0x80 = 0x80 := by
  rw [byte_and_mask _ _ (by decide)]
  apply Nat.eq_of_testBit_eq
  intro i
  rw [Nat.testBit_and, Nat.testBit_or]
  cases x.testBit i <;> cases Nat.testBit 0x80 i <;> rfl

theorem marked_nil : Marked [] := by
  intro reg bytes h
  exact absurd h (List.not_mem_nil _)

theorem marked_append (a b : List BusOp) (ha : Marked a) (hb : Marked b) :
    Marked (a ++ b) := by
  intro reg bytes h hreg
  rcases List.mem_append.mp h with h | h
  · exact ha reg bytes h hreg
  · exact hb reg bytes h hreg

theorem markedExt_refl (u : UnitDDS σ) : MarkedExt u u :=
  ⟨[], (List.append_nil _).symm, marked_nil⟩

theorem markedExt_trans {u v w : UnitDDS σ} (h1 : MarkedExt u v) (h2 : MarkedExt v w) :
    MarkedExt u w := by
  obtain ⟨a, ha, ma⟩ := h1
  obtain ⟨b, hb, mb⟩ := h2
  exact ⟨a ++ b, by rw [hb, ha, List.append_assoc], marked_append a b ma mb⟩

theorem markedExt_of_bus {u v w : UnitDDS σ} (h : MarkedExt u v) (hb : w.bus = v.bus) :
    MarkedExt u w := by
  obtain ⟨a, ha, ma⟩ := h
  exact ⟨a, by rw [hb, ha], ma⟩

theorem markedExt_read (t : Transport σ) (u : UnitDDS σ) (reg : Nat) :
    MarkedExt u (readRegister8 t u reg).2 := by
  refine ⟨[BusOp.read reg 1], rfl, ?_⟩
  intro r bytes h
  simp at h

theorem markedExt_write8 (t : Transport σ) (u : UnitDDS σ) (reg x : Nat) :
    MarkedExt u (write_register8 t u reg x).2 := by
  refine ⟨[BusOp.write reg [(x ||| 0x80) % 256]], rfl, ?_⟩
  intro r bytes h _ b hb
  simp only [List.mem_singleton, BusOp.write.injEq] at h
  obtain ⟨-, rfl⟩ := h
  simp only [List.mem_singleton] at hb
  subst hb
  exact marker_bit x

theorem marked_frequency_write (bytes : List Nat) :
    Marked [BusOp.write FREQUENCY_REG bytes] := by
  intro r bs h hreg
  simp only [List.mem_singleton, BusOp.write.injEq] at h
  obtain ⟨rfl, -⟩ := h
  rcases hreg with h | h <;> exact absurd h (by decide)

theorem markedExt_writeFrequency (t : Transport σ) (u : UnitDDS σ) (select : Bool)
    (freq : Nat) : MarkedExt u (writeFrequency t u select freq).2 := by
  rcases writeFrequency_bus_cases t u select freq with h | h
  · exact ⟨[], by rw [h, List.append_nil], marked_nil⟩
  · exact ⟨_, h, marked_frequency_write _⟩

theorem markedExt_writeFrequencyAndPhase (t : Transport σ) (u : UnitDDS σ)
    (select_freq : Bool) (freq : Nat) (select_phase : Bool) (deg : Nat) :
    MarkedExt u (writeFrequencyAndPhase t u select_freq freq select_phase deg).2 := by
  by_cases h : freq ≤ 1000000
  · exact ⟨_, writeFrequencyAndPhase_bus t u select_freq freq select_phase deg h,
      marked_frequency_write _⟩
  · rw [writeFrequencyAndPhase_invalid t u select_freq freq select_phase deg (by omega)]
    exact markedExt_refl u

theorem markedExt_writeMode (t : Transport σ) (u : UnitDDS σ) (mode : Mode) :
    MarkedExt u (writeMode t u mode).2 := by
  have r1 := markedExt_read t u MODE_REG
  have r2 := markedExt_trans r1 (markedExt_read t (readRegister8 t u MODE_REG).2 CONTROL_REG)
  refine writeMode_cases t u mode (fun r => MarkedExt u r.2) (fun _ => r1) (fun _ _ _ => r2) ?_
  intro v c _ _ w1 hw1
  subst hw1
  have r3 := markedExt_trans r2 (markedExt_write8 t
    (read_control t (readRegister8 t u MODE_REG).2).2 MODE_REG
    (((v &&& 0xF8) ||| mode.to_underlying) % 256))
  refine ⟨fun _ => r3, ?_⟩
  intro w2 hw2 _
  subst hw2
  have r4 := markedExt_trans r3 (markedExt_write8 t (write_register8 t
    (read_control t (readRegister8 t u MODE_REG).2).2 MODE_REG
    (((v &&& 0xF8) ||| mode.to_underlying) % 256)).2 CONTROL_REG c)
  refine ⟨fun _ => r4, fun _ _ => r4, fun _ _ => ?_⟩
  generalize (write_register8 t (write_register8 t
    (read_control t (readRegister8 t u MODE_REG).2).2 MODE_REG
    (((v &&& 0xF8) ||| mode.to_underlying) % 256)).2 CONTROL_REG c).2 = s at r4 ⊢
  have r5 := markedExt_trans r4 (markedExt_writeFrequency t s false (s._freq false))
  exact ⟨fun _ => r5, fun _ => markedExt_trans r5 (markedExt_writeFrequency t _ true _)⟩

/-! ## The read-modify-write operations on the control register -/

theorem writeCurrent_controlStep (t : Transport σ) (u : UnitDDS σ) (f p : Bool) :
    ControlStep t u (writeCurrent t u f p).2 := by
  rcases hc : (read_control t u).1 with _ | c
  · simp only [writeCurrent, hc]; exact Or.inr (Or.inl rfl)
  · simp only [writeCurrent, hc]; exact Or.inr (Or.inr ⟨_, rfl⟩)

theorem writeCurrentFrequency_controlStep (t : Transport σ) (u : UnitDDS σ) (f : Bool) :
    ControlStep t u (writeCurrentFrequency t u f).2 := by
  rcases hc : (read_control t u).1 with _ | c
  · simp only [writeCurrentFrequency, hc]; exact Or.inr (Or.inl rfl)
  · simp only [writeCurrentFrequency, hc]; exact Or.inr (Or.inr ⟨_, rfl⟩)

theorem writeCurrentPhase_controlStep (t : Transport σ) (u : UnitDDS σ) (p : Bool) :
    ControlStep t u (writeCurrentPhase t u p).2 := by
  rcases hc : (read_control t u).1 with _ | c
  · simp only [writeCurrentPhase, hc]; exact Or.inr (Or.inl rfl)
  · simp only [writeCurrentPhase, hc]; exact Or.inr (Or.inr ⟨_, rfl⟩)

theorem reset_controlStep (t : Transport σ) (u : UnitDDS σ) :
    ControlStep t u (reset t u).2 := by
  rcases hc : (read_control t u).1 with _ | c
  · simp only [reset, hc]; exact Or.inr (Or.inl rfl)
  · simp only [reset, hc]; exact Or.inr (Or.inr ⟨_, rfl⟩)

theorem wakeup_controlStep (t : Transport σ) (u : UnitDDS σ) :
    ControlStep t u (wakeup t u).2 := by
  rcases hc : (read_control t u).1 with _ | c
  · simp only [wakeup, hc]; exact Or.inr (Or.inl rfl)
  · simp only [wakeup, hc]
    refine Or.inr (Or.inr ⟨c &&& 0xE3, ?_⟩)
    split <;> rfl

theorem sleep_controlStep (t : Transport σ) (u : UnitDDS σ) (mclk DAC : Bool) :
    ControlStep t u (sleep t u mclk DAC).2 := by
  unfold sleep
  split
  · exact Or.inl rfl
  · rcases hc : (read_control t u).1 with _ | c
    · simp only [hc]; exact Or.inr (Or.inl rfl)
    · simp only [hc]; exact Or.inr (Or.inr ⟨_, rfl⟩)

theorem controlStep_markedExt (t : Transport σ) (u s : UnitDDS σ) (h : ControlStep t u s) :
    MarkedExt u s := by
  rcases h with rfl | rfl | ⟨x, rfl⟩
  · exact markedExt_refl _
  · exact markedExt_read t u CONTROL_REG
  · exact markedExt_trans (markedExt_read t u CONTROL_REG) (markedExt_write8 t _ _ _)

theorem controlStep_freq (t : Transport σ) (u s : UnitDDS σ) (h : ControlStep t u s) :
    s._freq = u._freq := by
  rcases h with rfl | rfl | ⟨x, rfl⟩ <;> rfl

/-- Case analysis of `writeOutput`: it ends refused, after a failed frame write,
after a failed `writeMode`, or with the result of `writeCurrent`. -/
theorem writeOutput_cases (t : Transport σ) (u : UnitDDS σ) (mode : Mode) (select : Bool)
    (freq deg : Nat) (P : Bool × UnitDDS σ → Prop)
    (h0 : 1000000 < freq → P (false, u))
    (h1 : freq ≤ 1000000 → (writeFrequencyAndPhase t u select freq select deg).1 = false →
      P (false, (writeFrequencyAndPhase t u select freq select deg).2))
    (h2 : freq ≤ 1000000 → (writeFrequencyAndPhase t u select freq select deg).1 = true →
      (writeMode t (writeFrequencyAndPhase t u select freq select deg).2 mode).1 = false →
      P (false, (writeMode t (writeFrequencyAndPhase t u select freq select deg).2 mode).2))
    (h3 : freq ≤ 1000000 → (writeFrequencyAndPhase t u select freq select deg).1 = true →
      (writeMode t (writeFrequencyAndPhase t u select freq select deg).2 mode).1 = true →
      P (writeCurrent t (writeMode t (writeFrequencyAndPhase t u select freq select deg).2
        mode).2 select select)) :
    P (writeOutput t u mode select freq deg) := by
  by_cases h : freq ≤ 1000000
  · rcases ha : (writeFrequencyAndPhase t u select freq select deg).1 with _ | _
    · simp only [writeOutput, is_valid_of_le freq h, ha, Bool.not_true, Bool.not_false,
        Bool.false_eq_true, if_false, if_true]
      exact h1 h ha
    · rcases hb : (writeMode t (writeFrequencyAndPhase t u select freq select deg).2 mode).1
        with _ | _
      · simp only [writeOutput, is_valid_of_le freq h, ha, hb, Bool.not_true, Bool.not_false,
          Bool.false_eq_true, if_false, if_true]
        exact h2 h ha hb
      · simp only [writeOutput, is_valid_of_le freq h, ha, hb, Bool.not_true,
          Bool.false_eq_true, if_false]
        exact h3 h ha hb
  · have hv : is_valid_frequency freq = false := by
      simp [is_valid_frequency, MAXIMUM_FREQ]; omega
    simp only [writeOutput, hv, Bool.not_false, if_true]
    exact h0 (by omega)

theorem markedExt_writeOutput (t : Transport σ) (u : UnitDDS σ) (mode : Mode)
    (select : Bool) (freq deg : Nat) : MarkedExt u (writeOutput t u mode select freq deg).2 := by
  have r1 := markedExt_writeFrequencyAndPhase t u select freq select deg
  have r2 := markedExt_trans r1 (markedExt_writeMode t _ mode)
  exact writeOutput_cases t u mode select freq deg (fun r => MarkedExt u r.2)
    (fun _ => markedExt_refl u) (fun _ _ => r1) (fun _ _ _ => r2)
    (fun _ _ _ => markedExt_trans r2
      (controlStep_markedExt t _ _ (writeCurrent_controlStep t _ select select)))

/-- C22. In each of `writeMode`, `writeCurrent`, `writeCurrentFrequency`,
`writeCurrentPhase`, `sleep`, `wakeup`, `reset` and `writeOutput`, on any
transport and from any state, every byte written to the mode register (0x20) or
to the control register (0x21) has bit 0x80 set. -/
theorem write_marker_always_set (t : Transport σ) (u : UnitDDS σ) (mode : Mode)
    (select_freq select_phase mclk DAC : Bool) (freq deg : Nat) :
    MarkedExt u (writeMode t u mode).2 ∧
    MarkedExt u (writeCurrent t u select_freq select_phase).2 ∧
    MarkedExt u (writeCurrentFrequency t u select_freq).2 ∧
    MarkedExt u (writeCurrentPhase t u select_phase).2 ∧
    MarkedExt u (sleep t u mclk DAC).2 ∧
    MarkedExt u (wakeup t u).2 ∧
    MarkedExt u (reset t u).2 ∧
    MarkedExt u (writeOutput t u mode select_freq freq deg).2 :=
  ⟨markedExt_writeMode t u mode,
   controlStep_markedExt t u _ (writeCurrent_controlStep t u _ _),
   controlStep_markedExt t u _ (writeCurrentFrequency_controlStep t u _),
   controlStep_markedExt t u _ (writeCurrentPhase_controlStep t u _),
   controlStep_markedExt t u _ (sleep_controlStep t u _ _),
   controlStep_markedExt t u _ (wakeup_controlStep t u),
   controlStep_markedExt t u _ (reset_controlStep t u),
   markedExt_writeOutput t u mode select_freq freq deg⟩

/-- The list `[write 0x20 [0x01]]` is not marked: the predicate does reject a
byte without the marker. -/
theorem unmarked_write_rejected : ¬ Marked [BusOp.write 0x20 [0x01]] := by
  intro h
  have h1 := h 0x20 [0x01] (List.mem_singleton.mpr rfl) (Or.inl rfl) 0x01
    (List.mem_singleton.mpr rfl)
  exact absurd h1 (by decide)

/-! ## Ranges of the tuning word and of the phase word -/

/-- The value that `llround` returns inside `calculate_ftw`, before the cast and
the mask, is the exactly rounded quotient. -/
theorem ftw_rounded_eq (out_hz : Nat) (h : out_hz < 2560000000) :
    llround (fdiv DBL_MANT_DIG (fmul DBL_MANT_DIG (Dyadic.ofNat DBL_MANT_DIG out_hz)
      (Dyadic.ofNat DBL_MANT_DIG (1 <<< 28))) MCLK) = nearestInt (out_hz * 2 ^ 28) 10000000 := by
  obtain ⟨k1, hk1⟩ := ofNat_exact DBL_MANT_DIG out_hz
  obtain ⟨k2, hk2⟩ := ofNat_exact DBL_MANT_DIG (1 <<< 28)
  obtain ⟨k3, hk3⟩ := ofNat_exact DBL_MANT_DIG 10000000
  obtain ⟨k, hk⟩ := fmul_exact DBL_MANT_DIG out_hz (1 <<< 28) k1 k2
  rw [hk1, hk2, hk, MCLK, hk3]
  have h28 : (1 <<< 28 : Nat) = 2 ^ 28 := by decide
  rw [h28]
  unfold fdiv
  simp only
  have e1 : out_hz * 2 ^ 28 * 2 ^ k * 2 ^ k3 = out_hz * 2 ^ 28 * (2 ^ k * 2 ^ k3) := by ring
  have e2 : 10000000 * 2 ^ k3 * 2 ^ k = 10000000 * (2 ^ k * 2 ^ k3) := by ring
  rw [e1, e2]
  exact llround_quotient out_hz (2 ^ k * 2 ^ k3) (by positivity) h

theorem nearest_ftw_le (freq : Nat) (h : freq ≤ 1000000) :
    nearestInt (freq * 2 ^ 28) 10000000 ≤ 26843546 := by
  unfold nearestInt
  norm_num
  omega

theorem calculate_ftw_eq_nearest (freq : Nat) (h : freq ≤ 1000000) :
    calculate_ftw freq = nearestInt (freq * 2 ^ 28) 10000000 := by
  rw [calculate_ftw_eq_spec freq (by omega)]
  unfold tuningWordSpec
  apply Nat.mod_eq_of_lt
  exact lt_of_le_of_lt (nearest_ftw_le freq h) (by norm_num)

theorem calculate_ftw_strictMono (f g : Nat) (hfg : f < g) (hg : g ≤ 1000000) :
    calculate_ftw f < calculate_ftw g := by
  rw [calculate_ftw_eq_nearest f (by omega), calculate_ftw_eq_nearest g hg]
  unfold nearestInt
  norm_num
  omega

theorem calculate_phase_eq_nearest (deg : Nat) :
    calculate_phase deg = nearestInt (deg % 360 * 2048) 360 ∧ calculate_phase deg ≤ 2042 := by
  rw [calculate_phase_eq_spec]
  unfold phaseWordSpec nearestInt
  have hd : deg % 360 < 360 := Nat.mod_lt _ (by norm_num)
  generalize deg % 360 = r at hd
  have hc : (2 * (r * 2048) + 360) / (2 * 360) ≤ 2042 := by omega
  rw [Nat.mod_eq_of_lt (lt_of_le_of_lt hc (by norm_num))]
  exact ⟨rfl, hc⟩

theorem calculate_phase_strictMono (d e : Nat) (hde : d < e) (he : e < 360) :
    calculate_phase d < calculate_phase e := by
  rw [(calculate_phase_eq_nearest d).1, (calculate_phase_eq_nearest e).1]
  unfold nearestInt
  rw [Nat.mod_eq_of_lt (by omega : d < 360), Nat.mod_eq_of_lt he]
  omega

set_option maxRecDepth 1000000 in
/-- On every reduced degree the value that `lround` returns inside
`calculate_phase`, before the cast and the mask, is the phase word itself. -/
theorem phase_rounded_table : ∀ d < 360,
    llround (fmul FLT_MANT_DIG (Dyadic.ofNat FLT_MANT_DIG d)
      (fdiv FLT_MANT_DIG (Dyadic.ofNat FLT_MANT_DIG 2048) (Dyadic.ofNat FLT_MANT_DIG 360)))
      = calculate_phase d := by
  decide

theorem frequency_bus_injective (t : Transport σ) (u : UnitDDS σ) (select : Bool)
    (f g : Nat) (hf : f ≤ 1000000) (hg : g ≤ 1000000)
    (h : (writeFrequency t u select f).2.bus = (writeFrequency t u select g).2.bus) :
    calculate_ftw f = calculate_ftw g := by
  rw [writeFrequency_bus t u select f hf, writeFrequency_bus t u select g hg] at h
  have hl := List.append_cancel_left h
  simp only [List.cons.injEq, BusOp.write.injEq, true_and, and_true] at hl
  obtain ⟨h0, h1, h2, h3⟩ := hl
  have htag : (if select then 0xC0 else 0x80 : Nat) = 0x80 ∨
      (if select then 0xC0 else 0x80 : Nat) = 0xC0 := by cases select <;> simp
  have df := (frame_decode _ (calculate_ftw_lt f) _ htag).1
  have dg := (frame_decode _ (calculate_ftw_lt g) _ htag).1
  rw [h0, h1, h2, h3] at df
  exact df.symm.trans dg

/-- C23. On [0, 1,000,000] `calculate_ftw` is strictly increasing, so two
different accepted frequencies give different tuning words and `writeFrequency`
transmits different bytes for them; `calculate_phase` is strictly increasing
on the degrees 0..359. -/
theorem words_strictly_increasing (t : Transport σ) (u : UnitDDS σ) (select : Bool) :
    (∀ f g, f < g → g ≤ 1000000 → calculate_ftw f < calculate_ftw g) ∧
    (∀ f g, f ≤ 1000000 → g ≤ 1000000 → f ≠ g →
      calculate_ftw f ≠ calculate_ftw g ∧
      (writeFrequency t u select f).2.bus ≠ (writeFrequency t u select g).2.bus) ∧
    (∀ d e, d < e → e < 360 → calculate_phase d < calculate_phase e) := by
  have hne : ∀ f g, f ≤ 1000000 → g ≤ 1000000 → f ≠ g →
      calculate_ftw f ≠ calculate_ftw g := by
    intro f g hf hg hfg
    rcases Nat.lt_or_gt_of_ne hfg with h | h
    · exact Nat.ne_of_lt (calculate_ftw_strictMono f g h hg)
    · exact (Nat.ne_of_lt (calculate_ftw_strictMono g f h hf)).symm
  refine ⟨calculate_ftw_strictMono, ?_, calculate_phase_strictMono⟩
  intro f g hf hg hfg
  exact ⟨hne f g hf hg hfg,
    fun h => hne f g hf hg hfg (frequency_bus_injective t u select f g hf hg h)⟩

/-- C23 at neighbouring inputs: 999,999 Hz and 1,000,000 Hz, 358 and 359
degrees. -/
theorem words_strictly_increasing_witness :
    calculate_ftw 999999 < calculate_ftw 1000000 ∧
    (calculate_ftw 999999 ≠ calculate_ftw 1000000 ∧
      (writeFrequency registerStore (UnitDDS.init (registers 0 0)) true 999999).2.bus ≠
        (writeFrequency registerStore (UnitDDS.init (registers 0 0)) true 1000000).2.bus) ∧
    calculate_phase 358 < calculate_phase 359 :=
  ⟨(words_strictly_increasing registerStore (UnitDDS.init (registers 0 0)) true).1
      999999 1000000 (by decide) (by decide),
   (words_strictly_increasing registerStore (UnitDDS.init (registers 0 0)) true).2.1
      999999 1000000 (by decide) (by decide) (by decide),
   (words_strictly_increasing registerStore (UnitDDS.init (registers 0 0)) true).2.2
      358 359 (by decide) (by decide)⟩

set_option maxRecDepth 100000 in
theorem phase_byte0_bits : ∀ x < 8, ∀ select : Bool,
    (x &&& 0x07) = x ∧
    ((x &&& 0x07) ||| (if select then 0xC0 else 0x80)) &&& 0xC0
      = (if select then 0xC0 else 0x80) ∧
    ((x &&& 0x07) ||| (if select then 0xC0 else 0x80)) &&& 0x3F = x := by
  decide

/-- C24. For `freq` in [0, 1,000,000], `calculate_ftw freq` is at most
26,843,546, below `2^28`; it is the value `llround` returned, unchanged by the
cast and the mask; the payload nibble of frequency byte0 is at most 1, so byte0
is one of 0x80, 0x81, 0xC0, 0xC1.  For every `deg`, `calculate_phase deg` is at
most 2042, below 2048; it is the value `lround` returned, unchanged by the cast
and the mask; in phase byte0 the tag bits 0xC0 are the bank tag and the
remaining bits are the top three payload bits. -/
theorem word_ranges (freq deg : Nat) (select : Bool) (h : freq ≤ 1000000) :
    (calculate_ftw freq ≤ 26843546 ∧ 26843546 < 2 ^ 28 ∧
      calculate_ftw freq = llround (fdiv DBL_MANT_DIG (fmul DBL_MANT_DIG
        (Dyadic.ofNat DBL_MANT_DIG freq) (Dyadic.ofNat DBL_MANT_DIG (1 <<< 28))) MCLK) ∧
      (calculate_ftw freq >>> 24) &&& 0x0F ≤ 1 ∧
      (((calculate_ftw freq >>> 24) &&& 0x0F) ||| (if select then 0xC0 else 0x80))
        ∈ [0x80, 0x81, 0xC0, 0xC1]) ∧
    (calculate_phase deg ≤ 2042 ∧ 2042 < 2048 ∧
      calculate_phase deg = llround (fmul FLT_MANT_DIG
        (Dyadic.ofNat FLT_MANT_DIG (deg % 360))
        (fdiv FLT_MANT_DIG (Dyadic.ofNat FLT_MANT_DIG 2048)
          (Dyadic.ofNat FLT_MANT_DIG 360))) ∧
      (((calculate_phase deg >>> 8) &&& 0x07) ||| (if select then 0xC0 else 0x80)) &&& 0xC0
        = (if select then 0xC0 else 0x80) ∧
      (((calculate_phase deg >>> 8) &&& 0x07) ||| (if select then 0xC0 else 0x80)) &&& 0x3F
        = calculate_phase deg >>> 8) := by
  have hle : calculate_ftw freq ≤ 26843546 := by
    rw [calculate_ftw_eq_nearest freq h]; exact nearest_ftw_le freq h
  have hnib : (calculate_ftw freq >>> 24) &&& 0x0F ≤ 1 := by
    have h0F : ∀ x : Nat, x &&& 0x0F = x % 2 ^ 4 := fun x => Nat.and_pow_two_sub_one_eq_mod x 4
    rw [h0F, Nat.shiftRight_eq_div_pow]
    norm_num
    omega
  have hp := (calculate_phase_eq_nearest deg).2
  have hp8 : calculate_phase deg >>> 8 < 8 := by
    rw [Nat.shiftRight_eq_div_pow]
    norm_num
    omega
  obtain ⟨-, k2, k3⟩ := phase_byte0_bits _ hp8 select
  refine ⟨⟨hle, by norm_num, ?_, hnib, ?_⟩, ⟨hp, by norm_num, ?_, k2, k3⟩⟩
  · rw [ftw_rounded_eq freq (by omega)]
    exact calculate_ftw_eq_nearest freq h
  · generalize (calculate_ftw freq >>> 24) &&& 0x0F = x at hnib
    interval_cases x <;> cases select <;> decide
  · rw [calculate_phase_mod deg]
    exact (phase_rounded_table (deg % 360) (Nat.mod_lt _ (by norm_num))).symm

/-- C24 at the largest accepted frequency and at 359 degrees, on bank 1. -/
theorem word_ranges_witness :
    (calculate_ftw 1000000 ≤ 26843546 ∧ 26843546 < 2 ^ 28 ∧
      calculate_ftw 1000000 = llround (fdiv DBL_MANT_DIG (fmul DBL_MANT_DIG
        (Dyadic.ofNat DBL_MANT_DIG 1000000) (Dyadic.ofNat DBL_MANT_DIG (1 <<< 28))) MCLK) ∧
      (calculate_ftw 1000000 >>> 24) &&& 0x0F ≤ 1 ∧
      (((calculate_ftw 1000000 >>> 24) &&& 0x0F) ||| (if true then 0xC0 else 0x80))
        ∈ [0x80, 0x81, 0xC0, 0xC1]) ∧
    (calculate_phase 359 ≤ 2042 ∧ 2042 < 2048 ∧
      calculate_phase 359 = llround (fmul FLT_MANT_DIG
        (Dyadic.ofNat FLT_MANT_DIG (359 % 360))
        (fdiv FLT_MANT_DIG (Dyadic.ofNat FLT_MANT_DIG 2048)
          (Dyadic.ofNat FLT_MANT_DIG 360))) ∧
      (((calculate_phase 359 >>> 8) &&& 0x07) ||| (if true then 0xC0 else 0x80)) &&& 0xC0
        = (if true then 0xC0 else 0x80) ∧
      (((calculate_phase 359 >>> 8) &&& 0x07) ||| (if true then 0xC0 else 0x80)) &&& 0x3F
        = calculate_phase 359 >>> 8) :=
  word_ranges 1000000 359 true (by decide)

/-- The bounds of C24 are attained: 1 MHz gives the word 26,843,546 and 359
degrees give the word 2042. -/
theorem word_ranges_attained :
    calculate_ftw 1000000 = 26843546 ∧ calculate_phase 359 = 2042 := by
  decide

/-! ## The cache invariant and the outcome of `writeMode` -/

theorem writeMode_wellFormed (t : Transport σ) (u : UnitDDS σ) (hu : u.WellFormed)
    (mode : Mode) : (writeMode t u mode).2.WellFormed := by
  refine writeMode_cases t u mode (fun r => r.2.WellFormed) (fun _ => hu) (fun _ _ _ => hu) ?_
  intro v c _ _ w1 hw1
  subst hw1
  refine ⟨fun _ => hu, ?_⟩
  intro w2 hw2 _
  subst hw2
  refine ⟨fun _ => hu, fun _ _ => hu, fun _ _ => ?_⟩
  have h4 : (write_register8 t (write_register8 t
      (read_control t (readRegister8 t u MODE_REG).2).2 MODE_REG
      (((v &&& 0xF8) ||| mode.to_underlying) % 256)).2 CONTROL_REG c).2.WellFormed := hu
  exact ⟨fun _ => writeFrequency_wellFormed t _ h4 _ _,
    fun _ => writeFrequency_wellFormed t _ (writeFrequency_wellFormed t _ h4 _ _) _ _⟩

theorem writeFrequencyAndPhase_wellFormed_any (t : Transport σ) (u : UnitDDS σ)
    (hu : u.WellFormed) (select_freq : Bool) (freq : Nat) (select_phase : Bool) (deg : Nat) :
    (writeFrequencyAndPhase t u select_freq freq select_phase deg).2.WellFormed := by
  by_cases h : freq ≤ 1000000
  · exact writeFrequencyAndPhase_wellFormed t u hu select_freq freq select_phase deg h
  · rw [writeFrequencyAndPhase_invalid t u select_freq freq select_phase deg (by omega)]
    exact hu

theorem controlStep_wellFormed (t : Transport σ) (u s : UnitDDS σ) (hu : u.WellFormed)
    (h : ControlStep t u s) : s.WellFormed := by
  intro b
  rw [controlStep_freq t u s h]
  exact hu b

theorem writeOutput_wellFormed (t : Transport σ) (u : UnitDDS σ) (hu : u.WellFormed)
    (mode : Mode) (select : Bool) (freq deg : Nat) :
    (writeOutput t u mode select freq deg).2.WellFormed := by
  have r1 := writeFrequencyAndPhase_wellFormed_any t u hu select freq select deg
  have r2 := writeMode_wellFormed t _ r1 mode
  exact writeOutput_cases t u mode select freq deg (fun r => r.2.WellFormed)
    (fun _ => hu) (fun _ _ => r1) (fun _ _ _ => r2)
    (fun _ _ _ => controlStep_wellFormed t _ _ r2 (writeCurrent_controlStep t _ select select))

theorem readMode_freq (t : Transport σ) (u : UnitDDS σ) :
    (readMode t u).2.2._freq = u._freq := by
  rcases h : (readRegister8 t u MODE_REG).1 with _ | v <;> simp only [readMode, h] <;> rfl

/-- Every state that the public operations can reach holds 16-bit values in
its cache. -/
theorem reachable_wellFormed (t : Transport σ) (u : UnitDDS σ) (h : Reachable t u) :
    u.WellFormed := by
  induction h with
  | init d => exact init_wellFormed d
  | readDescription d _ ih => exact ih
  | readMode _ ih => intro b; rw [readMode_freq]; exact ih b
  | writeMode mode _ ih => exact writeMode_wellFormed t _ ih mode
  | writeFrequency select freq _ ih => exact writeFrequency_wellFormed t _ ih select freq
  | writePhase select deg _ ih => exact ih
  | writeFrequencyAndPhase sf freq sp deg _ ih =>
    exact writeFrequencyAndPhase_wellFormed_any t _ ih sf freq sp deg
  | writeCurrent f p _ ih =>
    exact controlStep_wellFormed t _ _ ih (writeCurrent_controlStep t _ f p)
  | writeCurrentFrequency f _ ih =>
    exact controlStep_wellFormed t _ _ ih (writeCurrentFrequency_controlStep t _ f)
  | writeCurrentPhase p _ ih =>
    exact controlStep_wellFormed t _ _ ih (writeCurrentPhase_controlStep t _ p)
  | writeOutput mode select freq deg _ ih =>
    exact writeOutput_wellFormed t _ ih mode select freq deg
  | sleep mclk DAC _ ih =>
    exact controlStep_wellFormed t _ _ ih (sleep_controlStep t _ mclk DAC)
  | wakeup _ ih => exact controlStep_wellFormed t _ _ ih (wakeup_controlStep t _)
  | reset _ ih => exact controlStep_wellFormed t _ _ ih (reset_controlStep t _)

theorem replay_append (t : Transport σ) (a b : List BusOp) :
    ∀ d, replay t d (a ++ b) =
      ((replay t d a).1 && (replay t (replay t d a).2 b).1,
        (replay t (replay t d a).2 b).2) := by
  induction a with
  | nil => intro d; simp [replay]
  | cons op rest ih =>
    intro d
    cases op with
    | write reg bytes => simp [replay, ih, Bool.and_assoc]
    | read reg len => simp [replay, ih, Bool.and_assoc]

theorem faithful_trans {t : Transport σ} {u v w : UnitDDS σ} {ok : Bool}
    (h1 : Faithful t u true v) (h2 : Faithful t v ok w) : Faithful t u ok w := by
  obtain ⟨a, ha, da, oa⟩ := h1
  obtain ⟨b, hb, db, ob⟩ := h2
  refine ⟨a ++ b, by rw [hb, ha, List.append_assoc], ?_, ?_⟩
  · rw [replay_append, db, da]
  · rw [replay_append, ← oa, ob, da]; simp

theorem faithful_read (t : Transport σ) (u : UnitDDS σ) (reg : Nat) :
    Faithful t u (readRegister8 t u reg).1.isSome (readRegister8 t u reg).2 :=
  ⟨[BusOp.read reg 1], rfl, rfl, by simp [replay, readRegister8]⟩

theorem faithful_write8 (t : Transport σ) (u : UnitDDS σ) (reg x : Nat) :
    Faithful t u (write_register8 t u reg x).1 (write_register8 t u reg x).2 :=
  ⟨[BusOp.write reg [(x ||| 0x80) % 256]], rfl, rfl, by
    simp [replay, write_register8, writeRegister8, writeRegister]⟩

theorem faithful_writeFrequency (t : Transport σ) (u : UnitDDS σ) (select : Bool)
    (freq : Nat) (h : freq ≤ 1000000) :
    Faithful t u (writeFrequency t u select freq).1 (writeFrequency t u select freq).2 := by
  refine ⟨_, writeFrequency_bus t u select freq h, ?_, ?_⟩
  · simp only [writeFrequency, is_valid_of_le freq h, writeRegister, UnitDDS.set_freq, replay]
    generalize t.writeRegister u.device FREQUENCY_REG _ = r
    obtain ⟨ok, d⟩ := r
    cases ok <;> simp
  · rw [writeFrequency_result t u select freq h]
    simp [replay]

theorem faithful_of_eq {t : Transport σ} {u v : UnitDDS σ} {ok ok1 : Bool}
    (h : Faithful t u ok1 v) (e : ok1 = ok) : Faithful t u ok v := by
  rw [← e]; exact h

/-- With a 16-bit cache, the transactions that `writeMode` issues replay to its
final device state, and it returns true exactly when all of them succeed. -/
theorem faithful_writeMode (t : Transport σ) (u : UnitDDS σ) (hu : u.WellFormed)
    (mode : Mode) : Faithful t u (writeMode t u mode).1 (writeMode t u mode).2 := by
  have r1 := faithful_read t u MODE_REG
  refine writeMode_cases t u mode (fun r => Faithful t u r.1 r.2) ?_ ?_ ?_
  · intro hv
    exact faithful_of_eq r1 (by rw [hv]; rfl)
  · intro v hv hc
    have r1t : Faithful t u true (readRegister8 t u MODE_REG).2 :=
      faithful_of_eq r1 (by rw [hv]; rfl)
    exact faithful_trans r1t (faithful_of_eq
      (faithful_read t (readRegister8 t u MODE_REG).2 CONTROL_REG)
      (by rw [show (readRegister8 t (readRegister8 t u MODE_REG).2 CONTROL_REG).1 = none
            from hc]; rfl))
  · intro v c hv hc w1 hw1
    subst hw1
    have r1t : Faithful t u true (readRegister8 t u MODE_REG).2 :=
      faithful_of_eq r1 (by rw [hv]; rfl)
    have r2t : Faithful t u true (read_control t (readRegister8 t u MODE_REG).2).2 :=
      faithful_trans r1t (faithful_of_eq
        (faithful_read t (readRegister8 t u MODE_REG).2 CONTROL_REG)
        (by rw [show (readRegister8 t (readRegister8 t u MODE_REG).2 CONTROL_REG).1 = some c
              from hc]; rfl))
    have r3 := faithful_trans r2t (faithful_write8 t
      (read_control t (readRegister8 t u MODE_REG).2).2 MODE_REG
      (((v &&& 0xF8) ||| mode.to_underlying) % 256))
    refine ⟨fun hf => faithful_of_eq r3 hf, ?_⟩
    intro w2 hw2 ht1
    subst hw2
    have r3t := faithful_of_eq r3 ht1
    have r4 := faithful_trans r3t (faithful_write8 t (write_register8 t
      (read_control t (readRegister8 t u MODE_REG).2).2 MODE_REG
      (((v &&& 0xF8) ||| mode.to_underlying) % 256)).2 CONTROL_REG c)
    refine ⟨fun hf => faithful_of_eq r4 hf, fun ht2 _ => faithful_of_eq r4 ht2, ?_⟩
    intro ht2 _
    have r4t := faithful_of_eq r4 ht2
    have h4 : (write_register8 t (write_register8 t
        (read_control t (readRegister8 t u MODE_REG).2).2 MODE_REG
        (((v &&& 0xF8) ||| mode.to_underlying) % 256)).2 CONTROL_REG c).2.WellFormed := hu
    generalize (write_register8 t (write_register8 t
      (read_control t (readRegister8 t u MODE_REG).2).2 MODE_REG
      (((v &&& 0xF8) ||| mode.to_underlying) % 256)).2 CONTROL_REG c).2 = s at r4t h4 ⊢
    have v0 : s._freq false ≤ 1000000 := by have := h4 false; omega
    have r5 := faithful_trans r4t (faithful_writeFrequency t s false (s._freq false) v0)
    refine ⟨fun hf => faithful_of_eq r5 hf, ?_⟩
    intro ht3
    have r5t := faithful_of_eq r5 ht3
    have h5 := writeFrequency_wellFormed t s h4 false (s._freq false)
    have v1 : (writeFrequency t s false (s._freq false)).2._freq true ≤ 1000000 := by
      have := h5 true; omega
    exact faithful_trans r5t (faithful_writeFrequency t _ true _ v1)

/-- C25. In every state that a sequence of driver operations can reach, both
cached frequencies are at most 1,000,000 (they are 16-bit values), so the
re-sync inside `writeMode` is never refused by the range check: for every mode
`writeMode` returns true if and only if every transport read and write that it
issues succeeds. -/
theorem writeMode_outcome (t : Transport σ) (u : UnitDDS σ) (hr : Reachable t u)
    (mode : Mode) :
    (∀ b, u._freq b ≤ 1000000) ∧
    ∃ ops, (writeMode t u mode).2.bus = u.bus ++ ops ∧
      ((writeMode t u mode).1 = true ↔ (replay t u.device ops).1 = true) := by
  have hu := reachable_wellFormed t u hr
  refine ⟨fun b => by have := hu b; omega, ?_⟩
  obtain ⟨ops, hb, -, ho⟩ := faithful_writeMode t u hu mode
  exact ⟨ops, hb, by rw [ho]⟩

/-- C25 on the register store, in the state reached by
`writeFrequency(false, 100000)` and `writeOutput(Sawtooth, bank 1, 999999, 0)`,
for the mode Sin. -/
theorem writeMode_outcome_witness :
    (∀ b, (writeOutput registerStore (writeFrequency registerStore
        (UnitDDS.init (registers 0 0)) false 100000).2 Mode.Sawtooth true 999999 0).2._freq b
      ≤ 1000000) ∧
    ∃ ops, (writeMode registerStore (writeOutput registerStore (writeFrequency registerStore
        (UnitDDS.init (registers 0 0)) false 100000).2 Mode.Sawtooth true 999999 0).2
        Mode.Sin).2.bus =
      (writeOutput registerStore (writeFrequency registerStore
        (UnitDDS.init (registers 0 0)) false 100000).2 Mode.Sawtooth true 999999 0).2.bus
        ++ ops ∧
      ((writeMode registerStore (writeOutput registerStore (writeFrequency registerStore
        (UnitDDS.init (registers 0 0)) false 100000).2 Mode.Sawtooth true 999999 0).2
        Mode.Sin).1 = true ↔
       (replay registerStore (writeOutput registerStore (writeFrequency registerStore
        (UnitDDS.init (registers 0 0)) false 100000).2 Mode.Sawtooth true 999999 0).2.device
        ops).1 = true) :=
  writeMode_outcome registerStore _
    (Reachable.writeOutput Mode.Sawtooth true 999999 0
      (Reachable.writeFrequency false 100000 (Reachable.init (registers 0 0)))) Mode.Sin

/-- Without the cache invariant the equivalence of C25 would fail: from a state
whose cache held 2,000,000 (which no sequence of operations reaches) the
re-sync is refused although every transaction issued succeeds. -/
theorem writeMode_refused_outside_invariant :
    (writeMode registerStore (⟨fun _ => 2000000, registers 4 0, []⟩ : UnitDDS (Nat → Nat))
      Mode.Sin).1 = false ∧
    (writeMode registerStore (⟨fun _ => 2000000, registers 4 0, []⟩ : UnitDDS (Nat → Nat))
      Mode.Sin).2.bus =
      [BusOp.read 0x20 1, BusOp.read 0x21 1, BusOp.write 0x20 [0x81],
       BusOp.write 0x21 [0x80]] ∧
    (replay registerStore (registers 4 0)
      [BusOp.read 0x20 1, BusOp.read 0x21 1, BusOp.write 0x20 [0x81],
       BusOp.write 0x21 [0x80]]).1 = true := by
  decide

/-- Two runs of `writeMode` from reachable states: on the register store it
returns true and the replay of its six transactions succeeds; on a dead bus it
returns false and the replay of its single transaction fails. -/
theorem writeMode_outcome_runs :
    (writeMode registerStore (UnitDDS.init (registers 4 0)) Mode.Sin).1 = true ∧
    (replay registerStore (registers 4 0)
      [BusOp.read 0x20 1, BusOp.read 0x21 1, BusOp.write 0x20 [0x81],
       BusOp.write 0x21 [0x80], BusOp.write 0x30 [0x80, 0, 0, 0],
       BusOp.write 0x30 [0xC0, 0, 0, 0]]).1 = true ∧
    (writeMode deadBus (UnitDDS.init ()) Mode.Sin).1 = false ∧
    (writeMode deadBus (UnitDDS.init ()) Mode.Sin).2.bus = [BusOp.read 0x20 1] ∧
    (replay deadBus () [BusOp.read 0x20 1]).1 = false := by
  decide

end M5UnitDDS
